import Mathlib

/-!
Verification development for the EnergyHub backend core
(`backend/app/services/nem12_service.py`, `invoice_calculator.py`,
`reconciliation_engine.py`).

The Python services are shallowly embedded below.  Strings are `List Char`,
Python `Decimal`/`float` values are `ℚ` (`Decimal` arithmetic on the
relevant paths is exact), Python `dict`s keyed by strings or by object
identity are association lists.  Functions that can raise return
`Except`/`Option`.  Mutation of the shared meter dictionaries in
`nem12_service.py` (meter objects are aliased between `meters` and the
current-channel pointer) is modelled by an identity-keyed store, so that a
later mutation of the current channel is visible through every reference to
it, exactly as in Python.

Two deliberate scopings of the float model: quantities the program
accumulates in IEEE doubles (reading totals, bucket sums) are carried as
exact rationals, and the only facts asserted about them are ones preserved
under any rounding of an identical operation sequence — cross-expression
identities such as "peak + off-peak equals the total" are stated only for
exact arithmetic, since the program's floats satisfy them merely within
rounding (see the C6 theorems).  The single place a claim depends on the
binary64 value itself — the `matched / total` confidence quotient — models
the float division explicitly via `float64Div`.  Likewise the uncaught
`ZeroDivisionError` of `process_nem12` on a zero interval length, which the
total parser model collapses, is modelled explicitly by the crash-aware
`processNem12E` (see the C9 theorems).
-/

namespace EnergyHub

/-- Python `str` as a list of characters. -/
abbrev Str := List Char

/-- Coerce a Lean string literal to the embedded string type. -/
def str (s : String) : Str := s.data

/-- Characters Python's `str.strip()` removes (ASCII whitespace). -/
def isPySpace (c : Char) : Bool :=
  c = ' ' || c = '\t' || c = '\n' || c = '\r' || c = '\x0b' || c = '\x0c'

/-- Python `str.strip()`. -/
def pyStrip (cs : Str) : Str :=
  ((cs.dropWhile isPySpace).reverse.dropWhile isPySpace).reverse

/-- Python `str.split(sep)` for a one-character separator: always returns at
least one piece (`"".split(',') == ['']`). -/
def splitOnChar (sep : Char) : Str → List Str
  | [] => [[]]
  | c :: rest =>
    let r := splitOnChar sep rest
    if c = sep then [] :: r
    else match r with
      | [] => [[c]]
      | p :: ps => (c :: p) :: ps

/-- ASCII digit test (`str.isdigit` on ASCII input). -/
def isDigitCh (c : Char) : Bool := c.isDigit

/-- Numeric value of an ASCII digit (the value `int()` assigns to it;
tabulated over the ten digits so that it evaluates by rewriting, with the
code-point formula as the — never reached behind `isdigit` guards —
fallback). -/
def digitVal (c : Char) : ℕ :=
  if c = '0' then 0 else if c = '1' then 1 else if c = '2' then 2
  else if c = '3' then 3 else if c = '4' then 4 else if c = '5' then 5
  else if c = '6' then 6 else if c = '7' then 7 else if c = '8' then 8
  else if c = '9' then 9 else c.toNat - 48

/-- Value of a digit string, as `int()` computes it. -/
def natOfDigits (cs : Str) : ℕ := cs.foldl (fun a c => 10 * a + digitVal c) 0

/-- Python `str.isdigit()`: nonempty and all digits. -/
def pyIsDigit (cs : Str) : Bool := !cs.isEmpty && cs.all isDigitCh

/-- Unsigned part of Python `float()` on plain decimal literals
(`"12"`, `"1.5"`, `"1."`, `".5"`).  Exponent, `inf`/`nan` and underscore
forms accepted by CPython are outside the model; the repository's feeds and
all inputs used below are plain decimals. -/
def parseUnsigned (cs : Str) : Option ℚ :=
  let intPart := cs.takeWhile isDigitCh
  let rest := cs.dropWhile isDigitCh
  match rest with
  | [] => if intPart.isEmpty then none else some (natOfDigits intPart)
  | '.' :: frac =>
    if frac.all isDigitCh && (!intPart.isEmpty || !frac.isEmpty) then
      some ((natOfDigits intPart : ℚ) + (natOfDigits frac : ℚ) / (10 : ℚ) ^ frac.length)
    else none
  | _ => none

/-- Python `float(s)` on decimal literals, including the surrounding
whitespace and sign handling (`float(" -1.5 ")`). -/
def parseFloat (cs : Str) : Option ℚ :=
  match pyStrip cs with
  | '-' :: rest => (parseUnsigned rest).map (fun q => -q)
  | '+' :: rest => parseUnsigned rest
  | t => parseUnsigned t

/-- A calendar date, as produced by `datetime.strptime(s, '%Y%m%d').date()`. -/
structure Date where
  year : ℕ
  month : ℕ
  day : ℕ
deriving DecidableEq, Repr

/-- Gregorian leap-year rule used by `datetime`. -/
def isLeapYear (y : ℕ) : Bool := y % 4 = 0 && (y % 100 ≠ 0 || y % 400 = 0)

/-- Days in a month, as `datetime` validates them. -/
def daysInMonth (y m : ℕ) : ℕ :=
  if m = 2 then (if isLeapYear y then 29 else 28)
  else if m = 4 || m = 6 || m = 9 || m = 11 then 30
  else 31

/-- Embedding of `datetime.strptime(s, '%Y%m%d').date()` on an 8-digit string; fails
(`ValueError`) otherwise.  (CPython's `strptime` can also split some shorter
all-digit strings; the wire format and every input below uses 8 digits.) -/
def parseDate8 (cs : Str) : Option Date :=
  if cs.length = 8 && cs.all isDigitCh then
    let y := natOfDigits (cs.take 4)
    let m := natOfDigits ((cs.drop 4).take 2)
    let d := natOfDigits (cs.drop 6)
    if 1 ≤ m && m ≤ 12 && 1 ≤ d && d ≤ daysInMonth y m then some ⟨y, m, d⟩ else none
  else none

/-- Julian day number of a date (valid for the years a `%Y` date can carry). -/
def jdn (dt : Date) : ℕ :=
  let a := (14 - dt.month) / 12
  let y := dt.year + 4800 - a
  let mm := dt.month + 12 * a - 3
  dt.day + (153 * mm + 2) / 5 + 365 * y + y / 4 - y / 100 + y / 400 - 32045

/-- Python `date.weekday()`: Monday = 0 … Sunday = 6. -/
def pyWeekday (dt : Date) : ℕ := jdn dt % 7

/-- Python `date` ordering (lexicographic on year, month, day). -/
def dateLt (a b : Date) : Bool :=
  a.year < b.year || (a.year = b.year &&
    (a.month < b.month || (a.month = b.month && a.day < b.day)))

/-- Lookup in an insertion-ordered association list (Python `dict` read). -/
def alGet {κ α : Type} [DecidableEq κ] : List (κ × α) → κ → Option α
  | [], _ => none
  | (k, v) :: rest, key => if k = key then some v else alGet rest key

/-- Write to an insertion-ordered association list (Python `dict` write):
an existing key keeps its position, a new key is appended. -/
def alSet {κ α : Type} [DecidableEq κ] : List (κ × α) → κ → α → List (κ × α)
  | [], key, val => [(key, val)]
  | (k, v) :: rest, key, val =>
    if k = key then (k, val) :: rest else (k, v) :: alSet rest key val

/-! ## NEM12 interval store (`nem12_service.py`) -/

/-- One channel descriptor, the dict built by `_parse_200_record` together
with the fields `_parse_300_record` and finalization mutate into it.
(`total_generation`, always `None` and never read, is omitted.) -/
structure Meter where
  nmi : Str
  nmiConfiguration : Str
  registerId : Str
  nmiSuffix : Str
  meterSerial : Option Str
  unitOfMeasure : Str
  intervalLength : ℕ
  startDate : Option Date
  endDate : Option Date
  totalConsumption : ℚ
  intervalCount : Option ℕ
deriving DecidableEq, Repr

/-- Embedding of `_parse_200_record`. -/
def parse200 (fields : List Str) : Meter where
  nmi := (fields.get? 1).getD []
  nmiConfiguration := (fields.get? 2).getD []
  registerId := (fields.get? 3).getD []
  nmiSuffix := (fields.get? 4).getD []
  meterSerial := fields.get? 6
  unitOfMeasure := (fields.get? 7).getD (str "kWh")
  intervalLength :=
    match fields.get? 8 with
    | some f => if pyIsDigit f then natOfDigits f else 30
    | none => 30
  startDate := none
  endDate := none
  totalConsumption := 0
  intervalCount := none

/-- One stored interval reading (the dict appended by `_parse_300_record`;
the ISO date string round-trips to the date itself). -/
structure IntervalRec where
  date : Date
  interval : ℕ
  value : ℚ
  unit : Str
deriving DecidableEq, Repr

/-- Attempted read of the value field at loop position `i` of a `300`
record: present (`idx < len(fields)`) and `float()`-parseable, or dropped. -/
def readField (fields : List Str) (d : Date) (u : Str) (i : ℕ) : Option IntervalRec :=
  ((fields.get? (2 + i)).bind parseFloat).map
    (fun v => { date := d, interval := i + 1, value := v, unit := u })

/-- One iteration of the value loop of `_parse_300_record`: a parsed field
extends the reading list and the meter's running total, a dropped one is a
no-op.  The running total is carried as an exact rational in place of the
program's IEEE double; the additions performed are the same ones in the
same order, and only facts invariant under rounding such an operation
sequence are asserted of the accumulated value (see the C6 theorems). -/
def p300step (fields : List Str) (d : Date) (u : Str)
    (acc : Meter × List IntervalRec) (i : ℕ) : Meter × List IntervalRec :=
  match readField fields d u i with
  | some r =>
    ({ acc.1 with totalConsumption := acc.1.totalConsumption + r.value }, acc.2 ++ [r])
  | none => acc

/-- Embedding of `_parse_300_record`: updates the meter's date range, then walks the
`1440 // interval_length` value positions, silently dropping every field
that fails `float()` and accumulating the rest into the reading list and
the meter's running total.  When `interval_length` is `0` Python raises an
uncaught `ZeroDivisionError` at `1440 // interval_length`, before reading
any field of the row; this total function instead returns the meter
unchanged (Lean's `1440 / 0 = 0`).  That crash is modelled explicitly by
`step300Crashes` and the crash-aware runner `processNem12E` below, so
statements over the total pipeline describe the program on the inputs where
it completes. -/
def parse300 (fields : List Str) (m : Meter) : Meter × List IntervalRec :=
  let intervalsPerDay := 1440 / m.intervalLength
  match parseDate8 ((fields.get? 1).getD []) with
  | none => (m, [])
  | some d =>
    let m1 : Meter :=
      { m with
        startDate :=
          match m.startDate with
          | none => some d
          | some s => if dateLt d s then some d else some s,
        endDate :=
          match m.endDate with
          | none => some d
          | some e => if dateLt e d then some d else some e }
    (List.range intervalsPerDay).foldl (p300step fields d m.unitOfMeasure) (m1, [])

/-- Parser state of `process_nem12`.  Meter dicts are kept in an
identity-keyed `store` (ids count the `200` records seen) so that Python's
aliasing — `meters.append(current_meter)` appends a *reference* that later
mutations still reach — is reproduced; `finalized` lists the appended ids in
order. -/
structure PState where
  nextId : ℕ
  store : List (ℕ × Meter)
  finalized : List ℕ
  current : Option ℕ
  intervalData : List (Str × List IntervalRec)
deriving DecidableEq, Repr

def initState : PState :=
  { nextId := 0, store := [], finalized := [], current := none, intervalData := [] }

/-- The shared finalization step (`current_meter['interval_count'] = …;
meters.append(current_meter)`), run by `200` and `900` records.  Note that
the current pointer is *not* cleared. -/
def finalizeCurrent (st : PState) : PState :=
  match st.current with
  | none => st
  | some id =>
    match alGet st.store id with
    | none => st
    | some m =>
      { st with
        store := alSet st.store id
          { m with intervalCount := some (((alGet st.intervalData m.nmi).getD []).length) },
        finalized := st.finalized ++ [id] }

/-- Processing of one already-split record (`for line in lines` body). -/
def stepFields (st : PState) (fields : List Str) : PState :=
  match fields with
  | [] => st
  | rt :: _ =>
    if rt = str "100" then st
    else if rt = str "200" then
      { nextId := (finalizeCurrent st).nextId + 1,
        store := (finalizeCurrent st).store ++
          [((finalizeCurrent st).nextId, parse200 fields)],
        finalized := (finalizeCurrent st).finalized,
        current := some (finalizeCurrent st).nextId,
        intervalData := alSet (finalizeCurrent st).intervalData (parse200 fields).nmi [] }
    else if rt = str "300" then
      match st.current with
      | none => st
      | some id =>
        match alGet st.store id with
        | none => st
        | some m =>
          { st with
            store := alSet st.store id (parse300 fields m).1,
            intervalData :=
              alSet st.intervalData (parse300 fields m).1.nmi
                (((alGet st.intervalData (parse300 fields m).1.nmi).getD []) ++
                  (parse300 fields m).2) }
    else if rt = str "400" then st
    else if rt = str "900" then finalizeCurrent st
    else st

/-- Processing of one raw line: strip, split on commas, dispatch. -/
def stepLine (st : PState) (line : Str) : PState :=
  stepFields st (splitOnChar ',' (pyStrip line))

/-- Python `content.strip().split('\n')`. -/
def linesOf (content : Str) : List Str := splitOnChar '\n' (pyStrip content)

def runRows (rows : List Str) : PState := rows.foldl stepLine initState

/-- Embedding of `process_nem12` on raw file content (the returned value and the stored
file data are both read off the final state). -/
def processNem12 (content : Str) : PState := runRows (linesOf content)

/-- Does dispatching this already-split record raise the uncaught
`ZeroDivisionError` of `_parse_300_record`?  A `300` record computes
`1440 // interval_length` before reading any of its own fields, so every
day block processed while the current channel's interval-length field
parsed as `0` raises, whatever the rest of the row holds; no other record
type divides. -/
def step300Crashes (st : PState) (fields : List Str) : Bool :=
  match fields with
  | [] => false
  | rt :: _ =>
    if rt = str "300" then
      match st.current with
      | none => false
      | some id =>
        match alGet st.store id with
        | none => false
        | some m => m.intervalLength == 0
    else false

/-- Crash-propagating variant of `stepLine`: `none` is the raised
`ZeroDivisionError` escaping `process_nem12`, the one case the total
`stepLine` collapses. -/
def stepLineE (acc : Option PState) (line : Str) : Option PState :=
  match acc with
  | none => none
  | some st =>
    if step300Crashes st (splitOnChar ',' (pyStrip line)) then none
    else some (stepLine st line)

/-- Crash-aware `process_nem12`: `some` of the final parser state when the
run completes, `none` when a day block is processed for a channel whose
interval length parsed as `0` and the whole call raises. -/
def processNem12E (content : Str) : Option PState :=
  (linesOf content).foldl stepLineE (some initState)

/-- The `meters` list returned by `process_nem12`: the finalized references,
read through the store so that post-append mutations are visible. -/
def metersOf (st : PState) : List Meter := st.finalized.filterMap (alGet st.store)

/-- The fixed time-of-use window of `get_consumption_summary`:
peak = weekday and hour in [7, 22), where
minutes-since-midnight = (interval − 1) × interval_length. -/
def isPeakInterval (dt : Date) (intervalNum intervalLength : ℕ) : Bool :=
  let minutes := (intervalNum - 1) * intervalLength
  let hour := minutes / 60
  (pyWeekday dt < 5) && (7 ≤ hour && hour < 22)

/-- The peak/off-peak accumulation loop of `get_consumption_summary`.  As
with `p300step`, the two accumulators carry exact rationals in place of the
program's IEEE doubles: each receives the same addends in the same order as
its float counterpart, so below the sums are characterized only through
that operation sequence, and cross-sum identities are asserted for exact
arithmetic alone (see the C6 theorems). -/
def bucketSums (ivs : List IntervalRec) (intervalLength : ℕ) : ℚ × ℚ :=
  ivs.foldl
    (fun acc r =>
      if isPeakInterval r.date r.interval intervalLength then (acc.1 + r.value, acc.2)
      else (acc.1, acc.2 + r.value))
    (0, 0)

/-- One entry of the consumption summary list. -/
structure Summary where
  nmi : Str
  periodStart : Option Date
  periodEnd : Option Date
  totalKwh : ℚ
  peakKwh : ℚ
  offPeakKwh : ℚ
deriving DecidableEq, Repr

/-- The summary built for one meter reference. -/
def summaryOf (st : PState) (m : Meter) : Summary :=
  let ivs := (alGet st.intervalData m.nmi).getD []
  let sums := bucketSums ivs m.intervalLength
  { nmi := m.nmi, periodStart := m.startDate, periodEnd := m.endDate,
    totalKwh := m.totalConsumption, peakKwh := sums.1, offPeakKwh := sums.2 }

/-- Embedding of `get_consumption_summary` over the stored file data. -/
def getConsumptionSummary (st : PState) : List Summary :=
  (metersOf st).map (summaryOf st)

/-! ## Invoice calculator (`invoice_calculator.py`) -/

/-- Embedding of `Decimal.quantize(Decimal('0.01'), rounding=ROUND_HALF_UP)`: round to
cents, ties away from zero. -/
def roundHalfUp2 (q : ℚ) : ℚ :=
  ((if 0 ≤ q then ⌊q * 100 + 1 / 2⌋ else -⌊-(q * 100) + 1 / 2⌋ : ℤ) : ℚ) / 100

/-- Python's built-in `round(x, 2)`: round to cents, ties to even, applied
to the exact value of the argument.  CPython's `round` on a `float` is
correctly rounded over the exact binary value of the double it receives, so
this is faithful exactly when the argument is that double's value; where
the double itself differs from the ideal quotient — the confidence score of
`reconcile` — the binary64 rounding `float64Div` is applied first. -/
def roundHalfEven2 (q : ℚ) : ℚ :=
  let s := q * 100
  let f := ⌊s⌋
  let r := s - (f : ℚ)
  ((if r < 1 / 2 then f
    else if (1 : ℚ) / 2 < r then f + 1
    else if f % 2 = 0 then f else f + 1 : ℤ) : ℚ) / 100

/-- Round a rational to the nearest integer, ties to even — the IEEE 754
default rounding, used for the binary64 significand below. -/
def rheInt (x : ℚ) : ℤ :=
  if x - (⌊x⌋ : ℚ) < 1 / 2 then ⌊x⌋
  else if (1 : ℚ) / 2 < x - (⌊x⌋ : ℚ) then ⌊x⌋ + 1
  else if ⌊x⌋ % 2 = 0 then ⌊x⌋ else ⌊x⌋ + 1

/-- Floor of log₂(m / t) for positive naturals m, t.  The bit lengths of
numerator and denominator bracket the quotient within a factor of two on
each side, so the floor is one of two adjacent candidates, checked
directly. -/
def floorLog2Frac (m t : ℕ) : ℤ :=
  let e0 : ℤ := (Nat.log2 m : ℤ) - (Nat.log2 t : ℤ)
  if (2 : ℚ) ^ (e0 + 1) * (t : ℚ) ≤ (m : ℚ) then e0 + 1
  else if (2 : ℚ) ^ e0 * (t : ℚ) ≤ (m : ℚ) then e0
  else e0 - 1

/-- The exact value of the binary64 double produced by Python's true
division `m / t` of nonnegative machine integers, as `reconcile` computes
its `matched / total_items` confidence: CPython rounds the exact quotient
to the nearest double, ties to even — 53 significand bits, with gradual
underflow below 2^(-1022).  (Overflow needs a quotient of at least 2^1024
and so cannot arise from a quotient of counts; Python's `m / 0` raises
rather than returning a value, and the `0` branch here is never taken by
`reconcileSummary`, which guards the division by `0 < recs.length`.) -/
def float64Div (m t : ℕ) : ℚ :=
  if m = 0 ∨ t = 0 then 0
  else
    let scale : ℤ := max (floorLog2Frac m t - 52) (-1074)
    ((rheInt ((m : ℚ) / (t : ℚ) / 2 ^ scale) : ℤ) : ℚ) * 2 ^ scale

/-- One entry of a tariff's `time_periods` list, as `_get_period_rate`
reads it (`period.get('rate_cents_per_kwh', 25)`). -/
structure TimePeriod where
  name : Str
  rateCentsPerKwh : Option ℚ
deriving DecidableEq, Repr

/-- The tariff dict as `calculate` reads it (`.get` with defaults). -/
structure Tariff where
  dailySupplyChargeCents : Option ℚ
  usageRateCentsPerKwh : Option ℚ
  timePeriods : List TimePeriod
deriving DecidableEq, Repr

/-- Python `str.lower()` (ASCII; the period names in play are ASCII). -/
def toLowerStr (cs : Str) : Str := cs.map Char.toLower

/-- The documented fallback rates of `_get_period_rate`
(`{'peak': 35, 'off_peak': 18, 'shoulder': 25}` with overall default 25). -/
def defaultPeriodRate (periodName : Str) : ℚ :=
  if periodName = str "peak" then 35
  else if periodName = str "off_peak" then 18
  else if periodName = str "shoulder" then 25
  else 25

/-- Embedding of `_get_period_rate`: first period whose name matches case-insensitively,
else the documented default for the requested bucket name. -/
def getPeriodRate (t : Tariff) (periodName : Str) : ℚ :=
  match t.timePeriods.find? (fun p => toLowerStr p.name == toLowerStr periodName) with
  | some p => p.rateCentsPerKwh.getD 25
  | none => defaultPeriodRate periodName

/-- One calculated line item.  (The inert metadata fields `tariff_code`,
`period_start`, `period_end` carried by some items are omitted.) -/
structure CalcLineItem where
  description : Str
  chargeType : Str
  quantity : Option ℚ
  unit : Option Str
  rate : Option ℚ
  amount : ℚ
deriving DecidableEq, Repr

/-- The dict returned by `calculate`. -/
structure CalcInvoice where
  nmi : Str
  billingPeriodStart : Date
  billingPeriodEnd : Date
  lineItems : List CalcLineItem
  subtotal : ℚ
  gst : ℚ
  total : ℚ
deriving DecidableEq, Repr

/-- The ways `calculate` fails: the explicit
`ValueError("No consumption data found for file ID")`, and the uncaught
`TypeError` it would hit when no billing period is supplied and the first
summary carries no dates (`None - None`). -/
inductive CalcError where
  | noConsumptionData
  | missingPeriodDates
deriving DecidableEq, Repr

/-- Embedding of `InvoiceCalculator.calculate`, over the stored file data, the tariff
value the fetcher returned for the requested code (`none` when the code is
unknown), and the optional explicit billing period (already
`%Y-%m-%d`-parsed). -/
def calculate (st : PState) (tariff : Option Tariff)
    (billingStart billingEnd : Option Date) : Except CalcError CalcInvoice :=
  match (getConsumptionSummary st).head? with
  | none => .error .noConsumptionData
  | some summary =>
    let period? : Option (Date × Date) :=
      match billingStart, billingEnd with
      | some s, some e => some (s, e)
      | _, _ =>
        match summary.periodStart, summary.periodEnd with
        | some s, some e => some (s, e)
        | _, _ => none
    match period? with
    | none => .error .missingPeriodDates
    | some (periodStart, periodEnd) =>
      let billingDays : ℤ := (jdn periodEnd : ℤ) - (jdn periodStart : ℤ) + 1
      let supplyItems : List CalcLineItem :=
        match tariff with
        | some t =>
          let dailySupply := (t.dailySupplyChargeCents.getD 100) / 100
          [{ description := str "Daily Supply Charge", chargeType := str "supply",
             quantity := some (billingDays : ℚ), unit := some (str "day"),
             rate := some dailySupply,
             amount := roundHalfUp2 (dailySupply * (billingDays : ℚ)) }]
        | none => []
      let totalKwh := summary.totalKwh
      let peakKwh := summary.peakKwh
      let offPeakKwh := summary.offPeakKwh
      let usageItems : List CalcLineItem :=
        match tariff with
        | some t =>
          if !t.timePeriods.isEmpty then
            let peakRate := getPeriodRate t (str "peak")
            let offPeakRate := getPeriodRate t (str "off_peak")
            (if 0 < peakKwh then
              [{ description := str "Peak Energy Usage", chargeType := str "usage",
                 quantity := some peakKwh, unit := some (str "kWh"),
                 rate := some (peakRate / 100),
                 amount := roundHalfUp2 (peakKwh * peakRate / 100) }]
             else []) ++
            (if 0 < offPeakKwh then
              [{ description := str "Off-Peak Energy Usage", chargeType := str "usage",
                 quantity := some offPeakKwh, unit := some (str "kWh"),
                 rate := some (offPeakRate / 100),
                 amount := roundHalfUp2 (offPeakKwh * offPeakRate / 100) }]
             else [])
          else
            let flatRate := t.usageRateCentsPerKwh.getD 25
            [{ description := str "Energy Usage", chargeType := str "usage",
               quantity := some totalKwh, unit := some (str "kWh"),
               rate := some (flatRate / 100),
               amount := roundHalfUp2 (totalKwh * flatRate / 100) }]
        | none =>
          let flatRate : ℚ := 25
          [{ description := str "Energy Usage", chargeType := str "usage",
             quantity := some totalKwh, unit := some (str "kWh"),
             rate := some (flatRate / 100),
             amount := roundHalfUp2 (totalKwh * flatRate / 100) }]
      let networkItems : List CalcLineItem :=
        [{ description := str "Network Charges", chargeType := str "network",
           quantity := some totalKwh, unit := some (str "kWh"),
           rate := some (8 / 100),
           amount := roundHalfUp2 (totalKwh * (8 / 100)) }]
      let lineItems := supplyItems ++ usageItems ++ networkItems
      let subtotal := (lineItems.map (fun it => it.amount)).sum
      let gst := roundHalfUp2 (subtotal * (10 / 100))
      .ok { nmi := summary.nmi, billingPeriodStart := periodStart,
            billingPeriodEnd := periodEnd, lineItems := lineItems,
            subtotal := subtotal, gst := gst, total := subtotal + gst }

/-! ## Reconciliation matcher (`reconciliation_engine.py`) -/

/-- A line item as `_reconcile_line_items` reads either input list
(`description`, `charge_type`, `quantity`, `rate`, `amount`). -/
structure MLineItem where
  description : Str
  chargeType : Str
  quantity : Option ℚ
  rate : Option ℚ
  amount : ℚ
deriving DecidableEq, Repr

/-- The discrepancy statuses (`'match' | 'minor' | 'significant' |
'missing_invoiced' | 'missing_calculated'`); `overall_status` reuses the
first three. -/
inductive RStatus where
  | sMatch
  | sMinor
  | sSignificant
  | sMissingInvoiced
  | sMissingCalculated
deriving DecidableEq, Repr

/-- The percentage difference computed for a matched pair (lines 178–181 of
`reconciliation_engine.py`): relative to the calculated amount when it is
positive, else 100 / 0 by whether the amounts differ. -/
def pctDiff (invAmount calcAmount : ℚ) : ℚ :=
  if 0 < calcAmount then |invAmount - calcAmount| / calcAmount * 100
  else if invAmount - calcAmount ≠ 0 then 100 else 0

/-- Status of a matched pair from its percentage difference
(lines 184–189). -/
def pairStatus (pct tolerancePercent : ℚ) : RStatus :=
  if pct ≤ tolerancePercent then .sMatch
  else if pct ≤ 5 then .sMinor
  else .sSignificant

/-- One reconciliation record.  (The free-text `notes` field, a formatting
detail, is omitted.) -/
structure RRecord where
  description : Str
  chargeType : Str
  invoicedQuantity : Option ℚ
  invoicedRate : Option ℚ
  invoicedAmount : ℚ
  calculatedQuantity : Option ℚ
  calculatedRate : Option ℚ
  calculatedAmount : ℚ
  amountDifference : ℚ
  percentageDifference : Option ℚ
  status : RStatus
deriving DecidableEq, Repr

/-- The inner search of the matching loop: the unconsumed bucket member
minimizing the absolute amount difference, ties to the first encountered.
The consumed set is the *shared* `calculated_matched` set of bucket-local
indices, exactly as in the source. -/
def findBest (bucket : List MLineItem) (calculatedMatched : List ℕ)
    (invAmount : ℚ) : Option (ℕ × MLineItem × ℚ) :=
  bucket.enum.foldl
    (fun best x =>
      if x.1 ∈ calculatedMatched then best
      else
        let diff := invAmount - x.2.amount
        match best with
        | none => some (x.1, x.2, diff)
        | some b => if |diff| < |b.2.2| then some (x.1, x.2, diff) else best)
    none

/-- Record for a matched invoiced/calculated pair. -/
def mkMatchedRecord (invItem calcItem : MLineItem) (tolerancePercent : ℚ) : RRecord :=
  let diff := invItem.amount - calcItem.amount
  let pct := pctDiff invItem.amount calcItem.amount
  { description := invItem.description, chargeType := invItem.chargeType,
    invoicedQuantity := invItem.quantity, invoicedRate := invItem.rate,
    invoicedAmount := invItem.amount,
    calculatedQuantity := calcItem.quantity, calculatedRate := calcItem.rate,
    calculatedAmount := calcItem.amount,
    amountDifference := diff,
    percentageDifference := some (roundHalfEven2 pct),
    status := pairStatus pct tolerancePercent }

/-- Record for an invoiced item with no available calculated counterpart. -/
def mkMissingCalculatedRecord (invItem : MLineItem) : RRecord :=
  { description := invItem.description, chargeType := invItem.chargeType,
    invoicedQuantity := invItem.quantity, invoicedRate := invItem.rate,
    invoicedAmount := invItem.amount,
    calculatedQuantity := none, calculatedRate := none, calculatedAmount := 0,
    amountDifference := invItem.amount, percentageDifference := none,
    status := .sMissingCalculated }

/-- Record for a calculated item never paired with an invoiced one. -/
def mkMissingInvoicedRecord (chargeType : Str) (calcItem : MLineItem) : RRecord :=
  { description := calcItem.description, chargeType := chargeType,
    invoicedQuantity := none, invoicedRate := none, invoicedAmount := 0,
    calculatedQuantity := calcItem.quantity, calculatedRate := calcItem.rate,
    calculatedAmount := calcItem.amount,
    amountDifference := -calcItem.amount, percentageDifference := none,
    status := .sMissingInvoiced }

/-- The charge-type partition of the calculated items
(`calc_by_type`, insertion-ordered). -/
def calcByType (calculatedItems : List MLineItem) : List (Str × List MLineItem) :=
  calculatedItems.foldl
    (fun acc it =>
      alSet acc it.chargeType (((alGet acc it.chargeType).getD []) ++ [it]))
    []

/-- The main matching loop over the invoiced items, threading the shared
`calculated_matched` index set. -/
def matchInvoiced (buckets : List (Str × List MLineItem)) (tolerancePercent : ℚ) :
    List MLineItem → List ℕ → List RRecord → List ℕ × List RRecord
  | [], calculatedMatched, acc => (calculatedMatched, acc)
  | invItem :: rest, calculatedMatched, acc =>
    let bucket := (alGet buckets invItem.chargeType).getD []
    match findBest bucket calculatedMatched invItem.amount with
    | some b =>
      matchInvoiced buckets tolerancePercent rest (calculatedMatched ++ [b.1])
        (acc ++ [mkMatchedRecord invItem b.2.1 tolerancePercent])
    | none =>
      matchInvoiced buckets tolerancePercent rest calculatedMatched
        (acc ++ [mkMissingCalculatedRecord invItem])

/-- The trailing loop: every bucket member whose bucket-local index is not in
the shared consumed set becomes a `missing_invoiced` record. -/
def missingInvoicedRecords (buckets : List (Str × List MLineItem))
    (calculatedMatched : List ℕ) : List RRecord :=
  buckets.foldl
    (fun acc bucket =>
      acc ++ bucket.2.enum.filterMap
        (fun x =>
          if x.1 ∈ calculatedMatched then none
          else some (mkMissingInvoicedRecord bucket.1 x.2)))
    []

/-- Embedding of `_reconcile_line_items`. -/
def reconcileLineItems (invoicedItems calculatedItems : List MLineItem)
    (tolerancePercent : ℚ) : List RRecord :=
  let buckets := calcByType calculatedItems
  let r := matchInvoiced buckets tolerancePercent invoicedItems [] []
  r.2 ++ missingInvoicedRecords buckets r.1

/-- The total percentage difference of `reconcile` (lines 73–76). -/
def totalPercentage (invoicedTotal calculatedTotal : ℚ) : ℚ :=
  if 0 < calculatedTotal then
    |invoicedTotal - calculatedTotal| / calculatedTotal * 100
  else if invoicedTotal - calculatedTotal ≠ 0 then 100 else 0

/-- The summary dict built by `reconcile` (identification fields, stored
dates and free-text recommendations omitted). -/
structure RSummary where
  invoicedTotal : ℚ
  calculatedTotal : ℚ
  totalDifference : ℚ
  totalPercentageDifference : ℚ
  lineItems : List RRecord
  matchedItems : ℕ
  minorDiscrepancies : ℕ
  significantDiscrepancies : ℕ
  missingItems : ℕ
  overallStatus : RStatus
  confidenceScore : ℚ
deriving DecidableEq, Repr

/-- The per-run rollup of `reconcile` (lines 62–123), over the two line-item
lists, the two invoice totals and the tolerance.  The confidence quotient
`matched / total_items` is a float true division of two integers, so it is
carried as its exact binary64 value via `float64Div` before `round`. -/
def reconcileSummary (invoicedTotal calculatedTotal : ℚ)
    (invoicedItems calculatedItems : List MLineItem)
    (tolerancePercent : ℚ) : RSummary :=
  let recs := reconcileLineItems invoicedItems calculatedItems tolerancePercent
  let totalDifference := invoicedTotal - calculatedTotal
  let totalPct := totalPercentage invoicedTotal calculatedTotal
  let matched := recs.countP (fun r => r.status = .sMatch)
  let minor := recs.countP (fun r => r.status = .sMinor)
  let significant := recs.countP (fun r => r.status = .sSignificant)
  let missing := recs.countP
    (fun r => r.status = .sMissingInvoiced ∨ r.status = .sMissingCalculated)
  let overallStatus : RStatus :=
    if 0 < significant ∨ 5 < |totalPct| then .sSignificant
    else if 0 < minor ∨ 0 < missing ∨ tolerancePercent < |totalPct| then .sMinor
    else .sMatch
  let confidence : ℚ := if 0 < recs.length then float64Div matched recs.length else 0
  { invoicedTotal := invoicedTotal, calculatedTotal := calculatedTotal,
    totalDifference := totalDifference,
    totalPercentageDifference := roundHalfEven2 totalPct,
    lineItems := recs,
    matchedItems := matched, minorDiscrepancies := minor,
    significantDiscrepancies := significant, missingItems := missing,
    overallStatus := overallStatus,
    confidenceScore := roundHalfEven2 confidence }

/-! ## Helper views of a raw file used in the statements -/

/-- Record type of a raw line (its first comma-separated field after
stripping, the dispatch key of `process_nem12`). -/
def recordTypeOf (line : Str) : Str :=
  ((splitOnChar ',' (pyStrip line)).get? 0).getD []

/-- The NMI a `200` line carries (the field `_parse_200_record` stores). -/
def nmiOfLine (line : Str) : Str :=
  ((splitOnChar ',' (pyStrip line)).get? 1).getD []

/-- The NMIs of the `200` records of a row list, in order. -/
def nmis200 (rows : List Str) : List Str :=
  rows.filterMap
    (fun l => if recordTypeOf l = str "200" then some (nmiOfLine l) else none)

/-- Does the stored file data contain a reading dated inside the closed
billing period?  This is the spec's side condition for the original claim
C4 ("the aggregate has no readings within the requested billing period"); it
is written from the spec's words, to be compared with what `calculate`
actually checks. -/
def specHasReadingInPeriod (st : PState) (periodStart periodEnd : Date) : Bool :=
  st.intervalData.any
    (fun kv => kv.2.any (fun r => !dateLt r.date periodStart && !dateLt periodEnd r.date))

/-! ## Concrete inputs used by the counterexamples and witnesses -/

/-- Invoiced side of the matcher run exhibiting the vanishing calculated
item: one usage and one supply item. -/
def exC1Invoiced : List MLineItem :=
  [{ description := str "Energy Usage", chargeType := str "usage",
     quantity := none, rate := none, amount := 10 },
   { description := str "Daily Supply Charge", chargeType := str "supply",
     quantity := none, rate := none, amount := 5 }]

/-- Calculated side of the same run: the exactly matching usage and supply
items. -/
def exC1Calculated : List MLineItem :=
  [{ description := str "Energy Usage", chargeType := str "usage",
     quantity := none, rate := none, amount := 10 },
   { description := str "Daily Supply Charge", chargeType := str "supply",
     quantity := none, rate := none, amount := 5 }]

/-- A NEM12 file with one channel and a single reading on 2024-01-01. -/
def exJanContent : Str := str "200,N1,,,,,,kWh,30\n300,20240101,1.0\n900"

/-- A tariff with a supply charge and a flat usage rate and no
time-of-use periods. -/
def exFlatTariff : Tariff :=
  { dailySupplyChargeCents := some 100, usageRateCentsPerKwh := some 20,
    timePeriods := [] }

/-- A NEM12 file with one channel, one day, a reading of 1.0 in the first
interval (off-peak) and 2.0 in interval 15 (Monday 07:00, peak). -/
def exTwoBucketContent : Str :=
  str "200,N1,,,,,,kWh,30\n300,20240101,1.0,,,,,,,,,,,,,,2.0\n900"

/-- A time-of-use tariff whose only named period is an upper-case `PEAK`
at 40 c/kWh (exercising the case-insensitive match and the off-peak
fallback). -/
def exTouTariff : Tariff :=
  { dailySupplyChargeCents := some 100, usageRateCentsPerKwh := none,
    timePeriods := [{ name := str "PEAK", rateCentsPerKwh := some 40 }] }

/-- A NEM12 file whose single reading is −1.0 in interval 15 (a peak slot):
the peak bucket of its aggregate is non-zero but negative. -/
def exNegPeakContent : Str :=
  str "200,N1,,,,,,kWh,30\n300,20240101,,,,,,,,,,,,,,,-1.0\n900"

/-- A NEM12 file in which the same NMI opens two channel contexts: the
second `200` record resets the shared per-NMI reading list out from under
the first channel's already-accumulated total. -/
def exDupNmiContent : Str :=
  str "200,N1,,,,,,kWh,30\n300,20240101,1.0\n200,N1,,,,,,kWh,30\n900"

/-- A NEM12 file whose last channel record is not followed by a terminator:
the trailing `300` reading is parsed into the NMI-keyed reading store, and
because an earlier finalized channel shares the NMI, it leaks into that
channel's summary. -/
def exLeakContent : Str :=
  str "200,N1,,,,,,kWh,30\n900\n200,N1,,,,,,kWh,30\n300,20240101,2.0"

/-- Invoiced items for the confidence-score counterexample: three items of
three charge types. -/
def exC8Invoiced : List MLineItem :=
  [{ description := str "Energy Usage", chargeType := str "usage",
     quantity := none, rate := none, amount := 10 },
   { description := str "Daily Supply Charge", chargeType := str "supply",
     quantity := none, rate := none, amount := 5 },
   { description := str "Network Charges", chargeType := str "network",
     quantity := none, rate := none, amount := 7 }]

/-- Calculated items for the confidence-score counterexample: only the
usage item, so exactly one of three records matches and the confidence
ratio is 1/3. -/
def exC8Calculated : List MLineItem :=
  [{ description := str "Energy Usage", chargeType := str "usage",
     quantity := none, rate := none, amount := 10 }]

/-- The invoice `calculate` produces for `exJanContent` under
`exFlatTariff` over the two-day billing period 2024-01-01 … 2024-01-02
(used to discharge the hypotheses of the C3 theorem). -/
def exC3Invoice : CalcInvoice :=
  { nmi := str "N1",
    billingPeriodStart := ⟨2024, 1, 1⟩, billingPeriodEnd := ⟨2024, 1, 2⟩,
    lineItems :=
      [{ description := str "Daily Supply Charge", chargeType := str "supply",
         quantity := some 2, unit := some (str "day"), rate := some 1, amount := 2 },
       { description := str "Energy Usage", chargeType := str "usage",
         quantity := some 1, unit := some (str "kWh"), rate := some (1 / 5),
         amount := 1 / 5 },
       { description := str "Network Charges", chargeType := str "network",
         quantity := some 1, unit := some (str "kWh"), rate := some (2 / 25),
         amount := 2 / 25 }],
    subtotal := 57 / 25, gst := 23 / 100, total := 251 / 100 }

/-- The first consumption summary of `exTwoBucketContent`: total 3 kWh,
peak 2 kWh, off-peak 1 kWh on 2024-01-01. -/
def exTouSummary : Summary :=
  { nmi := str "N1", periodStart := some ⟨2024, 1, 1⟩,
    periodEnd := some ⟨2024, 1, 1⟩, totalKwh := 3, peakKwh := 2, offPeakKwh := 1 }

/-- The invoice `calculate` produces for `exTwoBucketContent` under
`exTouTariff` over the one-day billing period 2024-01-01 (used to discharge
the hypotheses of the C5 theorem): the peak rate 40 comes from the
case-insensitively matched `PEAK` period, the off-peak rate 18 from the
documented fallback. -/
def exTouInvoice : CalcInvoice :=
  { nmi := str "N1",
    billingPeriodStart := ⟨2024, 1, 1⟩, billingPeriodEnd := ⟨2024, 1, 1⟩,
    lineItems :=
      [{ description := str "Daily Supply Charge", chargeType := str "supply",
         quantity := some 1, unit := some (str "day"), rate := some 1, amount := 1 },
       { description := str "Peak Energy Usage", chargeType := str "usage",
         quantity := some 2, unit := some (str "kWh"), rate := some (2 / 5),
         amount := 4 / 5 },
       { description := str "Off-Peak Energy Usage", chargeType := str "usage",
         quantity := some 1, unit := some (str "kWh"), rate := some (9 / 50),
         amount := 9 / 50 },
       { description := str "Network Charges", chargeType := str "network",
         quantity := some 3, unit := some (str "kWh"), rate := some (2 / 25),
         amount := 6 / 25 }],
    subtotal := 111 / 50, gst := 11 / 50, total := 61 / 25 }

/-- A file whose channel record carries interval length `0`, followed by a
day block: `_parse_300_record` evaluates `1440 // 0` and the whole ingest
raises `ZeroDivisionError`. -/
def exZeroIntervalContent : Str := str "200,N1,,,,,,kWh,0\n300,20240101,1.0\n900"

/-- Leading rows of the C10 witness file: one terminated channel `N2`. -/
def exC10Rows1 : List Str := [str "200,N2,,,,,,kWh,30", str "900"]

/-- The last, never-terminated channel record of the C10 witness file. -/
def exC10Line : Str := str "200,N1,,,,,,kWh,30"

/-- The trailing day-block rows of the C10 witness file (no further channel
or terminator record). -/
def exC10Rows2 : List Str := [str "300,20240101,1.0"]

/-- Fields of a day-block row with one malformed value field
(`"abc"` between two parseable readings). -/
def exC7Fields : List Str := splitOnChar ',' (str "300,20240101,1.0,abc,2.5")

/-- The 30-minute channel those fields are read against. -/
def exC7Meter : Meter := parse200 (splitOnChar ',' (str "200,N1,,,,,,kWh,30"))

/-- Bound of all meter ids that appear in the parser state by the next
fresh id. -/
def IdsInv (st : PState) : Prop :=
  (∀ kv ∈ st.store, kv.1 < st.nextId) ∧
  (∀ id ∈ st.finalized, id < st.nextId) ∧
  (∀ id, st.current = some id → id < st.nextId)

/-- Accounting invariant of the parser state relative to the list `P` of
channel NMIs opened so far: every stored meter's NMI was opened, distinct
meter objects carry distinct NMIs, and each meter's running total equals the
sum of the reading values stored under its NMI. -/
def StoreInv (st : PState) (P : List Str) : Prop :=
  IdsInv st ∧
  (∀ id m, alGet st.store id = some m → m.nmi ∈ P) ∧
  (∀ id₁ m₁ id₂ m₂, alGet st.store id₁ = some m₁ → alGet st.store id₂ = some m₂ →
    id₁ ≠ id₂ → m₁.nmi ≠ m₂.nmi) ∧
  (∀ id m, alGet st.store id = some m →
    (((alGet st.intervalData m.nmi).getD []).map IntervalRec.value).sum = m.totalConsumption)

/-! ## Association-list and fold lemmas -/

lemma alGet_alSet_self {κ α : Type} [DecidableEq κ] (l : List (κ × α)) (k : κ) (v : α) :
    alGet (alSet l k v) k = some v := by
  induction l with
  | nil => simp [alGet, alSet]
  | cons kv rest ih =>
    by_cases h : kv.1 = k
    · simp [alSet, alGet, h]
    · simpa [alSet, alGet, h] using ih

lemma alGet_alSet_ne {κ α : Type} [DecidableEq κ] (l : List (κ × α)) (k k' : κ) (v : α)
    (h : k ≠ k') : alGet (alSet l k v) k' = alGet l k' := by
  induction l with
  | nil => simp [alGet, alSet, h]
  | cons kv rest ih =>
    by_cases hk : kv.1 = k
    · simp [alSet, alGet, hk, h]
    · by_cases hk' : kv.1 = k'
      · have hne : ¬(k' = k) := fun e => h e.symm
        simp [alSet, alGet, hk, hk', hne]
      · simpa [alSet, alGet, hk, hk'] using ih

lemma alGet_append {κ α : Type} [DecidableEq κ] (l₁ l₂ : List (κ × α)) (k : κ) :
    alGet (l₁ ++ l₂) k = ((alGet l₁ k).rec (alGet l₂ k) (fun v => some v) : Option α) := by
  induction l₁ with
  | nil => simp [alGet]
  | cons kv rest ih =>
    by_cases h : kv.1 = k
    · simp [alGet, h]
    · simpa [alGet, h] using ih

lemma alGet_mem {κ α : Type} [DecidableEq κ] (l : List (κ × α)) (k : κ) (v : α)
    (h : alGet l k = some v) : (k, v) ∈ l := by
  induction l with
  | nil => simp [alGet] at h
  | cons kv rest ih =>
    by_cases hk : kv.1 = k
    · simp [alGet, hk] at h
      have : kv = (k, v) := Prod.ext hk h
      rw [← this]
      exact List.mem_cons_self _ _
    · simp [alGet, hk] at h
      exact List.mem_cons_of_mem _ (ih h)

lemma alSet_mem {κ α : Type} [DecidableEq κ] (l : List (κ × α)) (k : κ) (v : α) :
    ∀ kv ∈ alSet l k v, kv.1 = k ∨ kv ∈ l := by
  induction l with
  | nil => simp [alSet]
  | cons hd rest ih =>
    intro kv hkv
    by_cases hk : hd.1 = k
    · simp [alSet, hk] at hkv
      rcases hkv with h | h
      · left; rw [h]
      · right; exact List.mem_cons_of_mem _ h
    · simp only [alSet, if_neg hk, List.mem_cons] at hkv
      rcases hkv with h | h
      · right; rw [h]; exact List.mem_cons_self _ _
      · rcases ih kv h with h' | h'
        · left; exact h'
        · right; exact List.mem_cons_of_mem _ h'

lemma length_filterMap_eq_countP {α β : Type} (f : α → Option β) (l : List α) :
    (l.filterMap f).length = l.countP (fun a => (f a).isSome) := by
  induction l with
  | nil => simp
  | cons a rest ih =>
    cases h : f a with
    | none => simp [List.filterMap_cons, h, List.countP_cons, ih]
    | some b => simp [List.filterMap_cons, h, List.countP_cons, ih]

lemma splitOnChar_ne_nil (sep : Char) (cs : Str) : splitOnChar sep cs ≠ [] := by
  cases cs with
  | nil => simp [splitOnChar]
  | cons c rest =>
    simp only [splitOnChar]
    by_cases h : c = sep
    · simp [h]
    · simp only [if_neg h]
      cases splitOnChar sep rest <;> simp

lemma p300_foldl (fields : List Str) (d : Date) (u : Str) (l : List ℕ)
    (macc : Meter) (racc : List IntervalRec) :
    l.foldl (p300step fields d u) (macc, racc) =
      ({ macc with totalConsumption :=
           macc.totalConsumption + ((l.filterMap (readField fields d u)).map IntervalRec.value).sum },
        racc ++ l.filterMap (readField fields d u)) := by
  induction l generalizing macc racc with
  | nil => simp
  | cons i rest ih =>
    cases h : readField fields d u i with
    | none =>
      simp only [List.foldl_cons, p300step, h, List.filterMap_cons]
      rw [ih]
    | some r =>
      simp only [List.foldl_cons, p300step, h, List.filterMap_cons]
      rw [ih]
      cases macc
      simp [add_assoc]

lemma list_range_48 :
    List.range 48 =
      [0, 1, 2, 3, 4, 5, 6, 7, 8, 9, 10, 11, 12, 13, 14, 15, 16, 17, 18, 19, 20, 21,
       22, 23, 24, 25, 26, 27, 28, 29, 30, 31, 32, 33, 34, 35, 36, 37, 38, 39, 40,
       41, 42, 43, 44, 45, 46, 47] := by
  decide

lemma bucketSums_fst_add_snd (ivs : List IntervalRec) (intervalLength : ℕ) :
    (bucketSums ivs intervalLength).1 + (bucketSums ivs intervalLength).2 =
      (ivs.map IntervalRec.value).sum := by
  have key : ∀ (l : List IntervalRec) (a b : ℚ),
      (l.foldl
        (fun acc r =>
          if isPeakInterval r.date r.interval intervalLength then (acc.1 + r.value, acc.2)
          else (acc.1, acc.2 + r.value))
        (a, b)).1 +
      (l.foldl
        (fun acc r =>
          if isPeakInterval r.date r.interval intervalLength then (acc.1 + r.value, acc.2)
          else (acc.1, acc.2 + r.value))
        (a, b)).2 = a + b + (l.map IntervalRec.value).sum := by
    intro l
    induction l with
    | nil => intro a b; simp
    | cons r rest ih =>
      intro a b
      by_cases h : isPeakInterval r.date r.interval intervalLength = true
      · simp only [List.foldl_cons]
        rw [if_pos h, ih, List.map_cons, List.sum_cons]
        ring
      · simp only [List.foldl_cons]
        rw [if_neg h, ih, List.map_cons, List.sum_cons]
        ring
  simpa using key ivs 0 0

lemma alGet_alSet {κ α : Type} [DecidableEq κ] (l : List (κ × α)) (k v k') :
    alGet (alSet l k v) k' = if k = k' then some v else alGet l k' := by
  by_cases h : k = k'
  · subst h; simp [alGet_alSet_self]
  · simp [h, alGet_alSet_ne _ _ _ _ h]

lemma alGet_append_of_some {κ α : Type} [DecidableEq κ] {l₁ : List (κ × α)}
    (l₂ : List (κ × α)) {k : κ} {v : α} (h : alGet l₁ k = some v) :
    alGet (l₁ ++ l₂) k = some v := by
  rw [alGet_append, h]

lemma alGet_append_of_none {κ α : Type} [DecidableEq κ] {l₁ : List (κ × α)}
    (l₂ : List (κ × α)) {k : κ} (h : alGet l₁ k = none) :
    alGet (l₁ ++ l₂) k = alGet l₂ k := by
  rw [alGet_append, h]

lemma alGet_none_of_keys_lt (l : List (ℕ × Meter)) (n : ℕ)
    (h : ∀ kv ∈ l, kv.1 < n) : alGet l n = none := by
  cases hg : alGet l n with
  | none => rfl
  | some m => exact absurd (h _ (alGet_mem _ _ _ hg)) (lt_irrefl n)

lemma alGet_append_fresh (l : List (ℕ × Meter)) (n : ℕ) (m : Meter) (k : ℕ)
    (hkeys : ∀ kv ∈ l, kv.1 < n) :
    alGet (l ++ [(n, m)]) k = if k = n then some m else alGet l k := by
  by_cases hk : k = n
  · subst hk
    rw [alGet_append_of_none _ (alGet_none_of_keys_lt l k hkeys)]
    simp [alGet]
  · cases hg : alGet l k with
    | some v => rw [alGet_append_of_some _ hg, if_neg hk]
    | none =>
      rw [alGet_append_of_none _ hg, if_neg hk]
      have hnk : ¬ n = k := fun e => hk e.symm
      simp [alGet, hnk]

lemma parse300_preserves (fields : List Str) (m : Meter) :
    (parse300 fields m).1.nmi = m.nmi ∧
    (parse300 fields m).1.intervalLength = m.intervalLength ∧
    (parse300 fields m).1.totalConsumption =
      m.totalConsumption + (((parse300 fields m).2).map IntervalRec.value).sum := by
  unfold parse300
  cases hd : parseDate8 ((fields.get? 1).getD []) with
  | none => simp
  | some d => simp [p300_foldl]

lemma nmis200_cons (l : Str) (rows : List Str) :
    nmis200 (l :: rows) = nmis200 [l] ++ nmis200 rows := by
  simp only [nmis200, List.filterMap_cons]
  split <;> simp

lemma nmis200_append (r₁ r₂ : List Str) :
    nmis200 (r₁ ++ r₂) = nmis200 r₁ ++ nmis200 r₂ := by
  simp [nmis200, List.filterMap_append]

lemma finalize_fields (st : PState) :
    (finalizeCurrent st).nextId = st.nextId ∧
    (finalizeCurrent st).current = st.current ∧
    (finalizeCurrent st).intervalData = st.intervalData := by
  refine ⟨?_, ?_, ?_⟩ <;>
    (unfold finalizeCurrent; split) <;> first | rfl | (split <;> rfl)

lemma storeInv_finalize (st : PState) (P : List Str) (h : StoreInv st P) :
    StoreInv (finalizeCurrent st) P := by
  obtain ⟨⟨hkeys, hfin, hcur⟩, hsub, hdist, hsums⟩ := h
  unfold finalizeCurrent
  split
  · exact ⟨⟨hkeys, hfin, hcur⟩, hsub, hdist, hsums⟩
  · rename_i cid hc
    split
    · exact ⟨⟨hkeys, hfin, hcur⟩, hsub, hdist, hsums⟩
    · rename_i m hg
      have hcidlt : cid < st.nextId := hkeys _ (alGet_mem _ _ _ hg)
      refine ⟨⟨?_, ?_, ?_⟩, ?_, ?_, ?_⟩
      · intro kv hkv
        rcases alSet_mem _ _ _ kv hkv with he | hm
        · simpa [he] using hcidlt
        · exact hkeys _ hm
      · intro id hid
        rcases List.mem_append.mp hid with hid | hid
        · exact hfin _ hid
        · simpa [List.mem_singleton.mp hid] using hcidlt
      · intro id hid
        exact hcur id hid
      · intro id m' hm'
        rw [alGet_alSet] at hm'
        by_cases hid : cid = id
        · rw [if_pos hid] at hm'
          cases hm'
          show m.nmi ∈ P
          exact hsub _ _ hg
        · rw [if_neg hid] at hm'
          exact hsub _ _ hm'
      · intro id₁ m₁ id₂ m₂ h₁ h₂ hne
        rw [alGet_alSet] at h₁ h₂
        by_cases hi₁ : cid = id₁ <;> by_cases hi₂ : cid = id₂
        · exact absurd (hi₁.symm.trans hi₂) hne
        · rw [if_pos hi₁] at h₁
          rw [if_neg hi₂] at h₂
          cases h₁
          show m.nmi ≠ m₂.nmi
          exact hdist _ _ _ _ hg h₂ (fun e => hne (hi₁.symm.trans e))
        · rw [if_neg hi₁] at h₁
          rw [if_pos hi₂] at h₂
          cases h₂
          show m₁.nmi ≠ m.nmi
          exact hdist _ _ _ _ h₁ hg (fun e => hi₁ e.symm)
        · rw [if_neg hi₁] at h₁
          rw [if_neg hi₂] at h₂
          exact hdist _ _ _ _ h₁ h₂ hne
      · intro id m' hm'
        rw [alGet_alSet] at hm'
        by_cases hid : cid = id
        · rw [if_pos hid] at hm'
          cases hm'
          show (((alGet st.intervalData m.nmi).getD []).map IntervalRec.value).sum =
            m.totalConsumption
          exact hsums _ _ hg
        · rw [if_neg hid] at hm'
          exact hsums _ _ hm'

lemma storeInv_stepLine (st : PState) (P : List Str) (l : Str)
    (h : StoreInv st P)
    (hfresh : recordTypeOf l = str "200" → nmiOfLine l ∉ P) :
    StoreInv (stepLine st l) (P ++ nmis200 [l]) := by
  obtain ⟨rt, rest, hf⟩ :=
    List.exists_cons_of_ne_nil (splitOnChar_ne_nil ',' (pyStrip l))
  have hrt : recordTypeOf l = rt := by simp [recordTypeOf, hf]
  have hnmi : nmiOfLine l = (rest.get? 0).getD [] := by simp [nmiOfLine, hf]
  have hsingle : nmis200 [l] = if rt = str "200" then [nmiOfLine l] else [] := by
    by_cases h2 : rt = str "200" <;> simp [nmis200, hrt, h2]
  rw [stepLine, hf]
  by_cases h200 : rt = str "200"
  · -- channel record: finalize the previous context, open a fresh meter
    have h100 : ¬ rt = str "100" := by rw [h200]; decide
    have hx : nmiOfLine l ∉ P := hfresh (hrt.trans h200)
    rw [hsingle, if_pos h200]
    obtain ⟨⟨hkeys, hfin, hcur⟩, hsub, hdist, hsums⟩ := storeInv_finalize st P h
    have hmn : (parse200 (rt :: rest)).nmi = nmiOfLine l := by
      simp [parse200, hnmi]
    simp only [stepFields, if_neg h100, if_pos h200]
    refine ⟨⟨?_, ?_, ?_⟩, ?_, ?_, ?_⟩
    · intro kv hkv
      rcases List.mem_append.mp hkv with hkv | hkv
      · exact (hkeys _ hkv).trans (Nat.lt_succ_self _)
      · rw [List.mem_singleton.mp hkv]
        exact Nat.lt_succ_self _
    · intro id hid
      exact (hfin _ hid).trans (Nat.lt_succ_self _)
    · intro id hid
      rw [Option.some_inj.mp hid]
      exact Nat.lt_succ_self _
    · intro id m' hm'
      rw [alGet_append_fresh _ _ _ _ hkeys] at hm'
      by_cases hid : id = (finalizeCurrent st).nextId
      · rw [if_pos hid] at hm'
        cases hm'
        rw [hmn]
        exact List.mem_append_right _ (List.mem_singleton.mpr rfl)
      · rw [if_neg hid] at hm'
        exact List.mem_append_left _ (hsub _ _ hm')
    · intro id₁ m₁ id₂ m₂ h₁ h₂ hne
      rw [alGet_append_fresh _ _ _ _ hkeys] at h₁ h₂
      by_cases hi₁ : id₁ = (finalizeCurrent st).nextId <;>
        by_cases hi₂ : id₂ = (finalizeCurrent st).nextId
      · exact absurd (hi₁.trans hi₂.symm) hne
      · rw [if_pos hi₁] at h₁
        rw [if_neg hi₂] at h₂
        cases h₁
        intro he
        rw [hmn] at he
        exact hx (he ▸ hsub _ _ h₂)
      · rw [if_neg hi₁] at h₁
        rw [if_pos hi₂] at h₂
        cases h₂
        intro he
        rw [hmn] at he
        exact hx (he ▸ hsub _ _ h₁)
      · rw [if_neg hi₁] at h₁
        rw [if_neg hi₂] at h₂
        exact hdist _ _ _ _ h₁ h₂ hne
    · intro id m' hm'
      rw [alGet_append_fresh _ _ _ _ hkeys] at hm'
      by_cases hid : id = (finalizeCurrent st).nextId
      · rw [if_pos hid] at hm'
        cases hm'
        rw [alGet_alSet, if_pos rfl]
        simp [parse200]
      · rw [if_neg hid] at hm'
        have hmem : m'.nmi ∈ P := hsub _ _ hm'
        have hne' : (parse200 (rt :: rest)).nmi ≠ m'.nmi := by
          rw [hmn]
          exact fun e => hx (e ▸ hmem)
        rw [alGet_alSet, if_neg hne']
        exact hsums _ _ hm'
  · rw [hsingle, if_neg h200, List.append_nil]
    by_cases h100 : rt = str "100"
    · simpa [stepFields, if_pos h100] using h
    by_cases h300 : rt = str "300"
    · simp only [stepFields, if_neg h100, if_neg h200, if_pos h300]
      split
      · exact h
      · rename_i cid hc
        split
        · exact h
        · rename_i mm hg
          obtain ⟨⟨hkeys, hfin, hcur⟩, hsub, hdist, hsums⟩ := h
          obtain ⟨hnmiEq, hlenEq, htotEq⟩ := parse300_preserves (rt :: rest) mm
          refine ⟨⟨?_, hfin, hcur⟩, ?_, ?_, ?_⟩
          · intro kv hkv
            rcases alSet_mem _ _ _ kv hkv with he | hmem
            · rw [he]
              exact hkeys _ (alGet_mem _ _ _ hg)
            · exact hkeys _ hmem
          · intro id m' hm'
            rw [alGet_alSet] at hm'
            by_cases hid : cid = id
            · rw [if_pos hid] at hm'
              cases hm'
              rw [hnmiEq]
              exact hsub _ _ hg
            · rw [if_neg hid] at hm'
              exact hsub _ _ hm'
          · intro id₁ m₁ id₂ m₂ h₁ h₂ hne
            rw [alGet_alSet] at h₁ h₂
            by_cases hi₁ : cid = id₁ <;> by_cases hi₂ : cid = id₂
            · exact absurd (hi₁.symm.trans hi₂) hne
            · rw [if_pos hi₁] at h₁
              rw [if_neg hi₂] at h₂
              cases h₁
              rw [hnmiEq]
              exact hdist _ _ _ _ hg h₂ (fun e => hne (hi₁.symm.trans e))
            · rw [if_neg hi₁] at h₁
              rw [if_pos hi₂] at h₂
              cases h₂
              rw [hnmiEq]
              exact hdist _ _ _ _ h₁ hg (fun e => hi₁ e.symm)
            · rw [if_neg hi₁] at h₁
              rw [if_neg hi₂] at h₂
              exact hdist _ _ _ _ h₁ h₂ hne
          · intro id m' hm'
            rw [alGet_alSet] at hm'
            by_cases hid : cid = id
            · rw [if_pos hid] at hm'
              cases hm'
              rw [alGet_alSet, if_pos rfl]
              simp only [Option.getD_some]
              rw [List.map_append, List.sum_append, htotEq, hnmiEq, hsums _ _ hg]
            · rw [if_neg hid] at hm'
              have hne' : (parse300 (rt :: rest) mm).1.nmi ≠ m'.nmi := by
                rw [hnmiEq]
                exact hdist _ _ _ _ hg hm' hid
              rw [alGet_alSet, if_neg hne']
              exact hsums _ _ hm'
    by_cases h400 : rt = str "400"
    · simpa [stepFields, h100, h200, h300, if_pos h400] using h
    by_cases h900 : rt = str "900"
    · simp only [stepFields, if_neg h100, if_neg h200, if_neg h300, if_neg h400,
        if_pos h900]
      exact storeInv_finalize st P h
    · simpa [stepFields, h100, h200, h300, h400, h900] using h

lemma storeInv_init : StoreInv initState [] := by
  refine ⟨⟨?_, ?_, ?_⟩, ?_, ?_, ?_⟩ <;> simp [initState, alGet, IdsInv]

lemma storeInv_run (rows : List Str) (st : PState) (P : List Str)
    (h : StoreInv st P) (hnd : (P ++ nmis200 rows).Nodup) :
    StoreInv (rows.foldl stepLine st) (P ++ nmis200 rows) := by
  induction rows generalizing st P with
  | nil => simpa [nmis200] using h
  | cons l rest ih =>
    rw [List.foldl_cons]
    have hrw : nmis200 (l :: rest) = nmis200 [l] ++ nmis200 rest := nmis200_cons l rest
    rw [hrw] at hnd ⊢
    have hnd' : ((P ++ nmis200 [l]) ++ nmis200 rest).Nodup := by
      rwa [List.append_assoc]
    have hfresh : recordTypeOf l = str "200" → nmiOfLine l ∉ P := by
      intro h200
      have hl : nmis200 [l] = [nmiOfLine l] := by
        simp [nmis200, h200]
      rw [hl] at hnd
      intro hxP
      have hdisj := List.disjoint_of_nodup_append hnd
      exact hdisj hxP (List.mem_append_left _ (List.mem_singleton.mpr rfl))
    have hres := ih (stepLine st l) (P ++ nmis200 [l])
      (storeInv_stepLine st P l h hfresh) hnd'
    rwa [List.append_assoc] at hres

lemma mem_matchInvoiced (buckets : List (Str × List MLineItem)) (tol : ℚ)
    (items : List MLineItem) (cm : List ℕ) (acc : List RRecord) (r : RRecord)
    (h : r ∈ (matchInvoiced buckets tol items cm acc).2) :
    r ∈ acc ∨ (∃ a b, r = mkMatchedRecord a b tol) ∨ ∃ a, r = mkMissingCalculatedRecord a := by
  induction items generalizing cm acc with
  | nil => exact Or.inl (by simpa [matchInvoiced] using h)
  | cons invItem rest ih =>
    simp only [matchInvoiced] at h
    cases hb : findBest ((alGet buckets invItem.chargeType).getD []) cm invItem.amount with
    | some b =>
      rw [hb] at h
      rcases ih _ _ h with hacc | hrest
      · rcases List.mem_append.mp hacc with h' | h'
        · exact Or.inl h'
        · exact Or.inr (Or.inl ⟨invItem, b.2.1, by simpa using h'⟩)
      · exact Or.inr hrest
    | none =>
      rw [hb] at h
      rcases ih _ _ h with hacc | hrest
      · rcases List.mem_append.mp hacc with h' | h'
        · exact Or.inl h'
        · exact Or.inr (Or.inr ⟨invItem, by simpa using h'⟩)
      · exact Or.inr hrest

lemma mem_missingInvoicedRecords (buckets : List (Str × List MLineItem))
    (cm : List ℕ) (r : RRecord) (h : r ∈ missingInvoicedRecords buckets cm) :
    ∃ ct it, r = mkMissingInvoicedRecord ct it := by
  have key : ∀ (bs : List (Str × List MLineItem)) (acc : List RRecord),
      r ∈ bs.foldl
        (fun acc bucket =>
          acc ++ bucket.2.enum.filterMap
            (fun x =>
              if x.1 ∈ cm then none else some (mkMissingInvoicedRecord bucket.1 x.2)))
        acc →
      r ∈ acc ∨ ∃ ct it, r = mkMissingInvoicedRecord ct it := by
    intro bs
    induction bs with
    | nil => intro acc h'; exact Or.inl h'
    | cons b rest ih =>
      intro acc h'
      rcases ih _ h' with hacc | hdone
      · rcases List.mem_append.mp hacc with h'' | h''
        · exact Or.inl h''
        · rcases List.mem_filterMap.mp h'' with ⟨x, _, hx⟩
          by_cases hm : x.1 ∈ cm
          · simp [hm] at hx
          · simp only [if_neg hm, Option.some.injEq] at hx
            exact Or.inr ⟨b.1, x.2, hx.symm⟩
      · exact Or.inr hdone
  rcases key buckets [] h with h' | h'
  · simp at h'
  · exact h'

lemma pairStatus_ne_minor (pct tol : ℚ) (h : 5 < tol) :
    pairStatus pct tol ≠ RStatus.sMinor := by
  unfold pairStatus
  by_cases h1 : pct ≤ tol
  · simp [h1]
  · have h2 : ¬ pct ≤ 5 := fun h5 => h1 (h5.trans h.le)
    simp [h1, h2]

lemma status_of_mem_reconcileLineItems (A B : List MLineItem) (tol : ℚ) (r : RRecord)
    (h : r ∈ reconcileLineItems A B tol) :
    (∃ a b, r = mkMatchedRecord a b tol) ∨
    (∃ a, r = mkMissingCalculatedRecord a) ∨
    ∃ ct it, r = mkMissingInvoicedRecord ct it := by
  unfold reconcileLineItems at h
  rcases List.mem_append.mp h with h' | h'
  · rcases mem_matchInvoiced _ _ _ _ _ _ h' with hacc | hm | hm
    · simp at hacc
    · exact Or.inl hm
    · exact Or.inr (Or.inl hm)
  · exact Or.inr (Or.inr (mem_missingInvoicedRecords _ _ _ h'))

/-! ## Claim theorems -/

/-- C1: the claim states that every calculated item appears in exactly one
record of the matcher's output.  On `exC1Invoiced`/`exC1Calculated` (an
exactly matching usage + supply pair on each side) the code produces two
records of which only one carries a calculated counterpart and none is
`missing_invoiced`: the calculated supply item appears in no record at all,
because the bucket-local index consumed in the usage bucket is stored in the
single `calculated_matched` set shared by every charge-type bucket. -/
theorem C1_calculated_item_vanishes :
    (reconcileLineItems exC1Invoiced exC1Calculated 1).length = 2 ∧
    (reconcileLineItems exC1Invoiced exC1Calculated 1).countP
      (fun r => r.status ≠ RStatus.sMissingCalculated) = 1 ∧
    (reconcileLineItems exC1Invoiced exC1Calculated 1).countP
      (fun r => r.status = RStatus.sMissingInvoiced) = 0 ∧
    exC1Calculated.length = 2 := by
  norm_num +decide [exC1Invoiced, exC1Calculated, reconcileLineItems, calcByType,
    matchInvoiced, findBest, mkMatchedRecord, mkMissingCalculatedRecord,
    mkMissingInvoicedRecord, missingInvoicedRecords, alGet, alSet, pctDiff,
    pairStatus, str, List.enum, List.enumFrom, roundHalfEven2]

/-- C2 counterexample: for the matched pair invoiced = 5, calculated = −10
the claim's formula |invoiced − calculated| / calculated × 100 yields −150
(the claim's zero-case does not apply since calculated ≠ 0), while the code
computes 100: the code branches on `calculated > 0`, not `calculated = 0`. -/
theorem C2_counterexample :
    pctDiff 5 (-10) = 100 ∧
    |(5 : ℚ) - (-10)| / (-10) * 100 = -150 ∧ ((100 : ℚ) ≠ -150) := by
  norm_num [pctDiff]

/-- C2 amended: for every matched pair, the percentage difference equals
|invoiced − calculated| / calculated × 100 when the calculated amount is
positive, and otherwise (calculated ≤ 0, which subsumes the claim's
calculated = 0 case) is 100 when the amounts differ and 0 when they are
equal; the status is MATCH / MINOR / SIGNIFICANT by the claimed thresholds;
and with tolerance above 5 no record of a matcher run is ever MINOR. -/
theorem C2_matched_pair_classification (invAmount calcAmount tolerancePercent : ℚ)
    (invoicedItems calculatedItems : List MLineItem) :
    (0 < calcAmount →
      pctDiff invAmount calcAmount = |invAmount - calcAmount| / calcAmount * 100) ∧
    (calcAmount ≤ 0 →
      pctDiff invAmount calcAmount = if invAmount = calcAmount then 0 else 100) ∧
    pairStatus (pctDiff invAmount calcAmount) tolerancePercent =
      (if pctDiff invAmount calcAmount ≤ tolerancePercent then RStatus.sMatch
       else if pctDiff invAmount calcAmount ≤ 5 then RStatus.sMinor
       else RStatus.sSignificant) ∧
    (5 < tolerancePercent →
      ∀ r ∈ reconcileLineItems invoicedItems calculatedItems tolerancePercent,
        r.status ≠ RStatus.sMinor) := by
  refine ⟨fun h => by simp [pctDiff, h], fun h => ?_, rfl, fun htol r hr => ?_⟩
  · have h' : ¬ 0 < calcAmount := not_lt.mpr h
    by_cases he : invAmount = calcAmount
    · simp [pctDiff, h', he]
    · have : invAmount - calcAmount ≠ 0 := sub_ne_zero_of_ne he
      simp [pctDiff, h', he, this]
  · rcases status_of_mem_reconcileLineItems _ _ _ _ hr with ⟨a, b, rfl⟩ | ⟨a, rfl⟩ | ⟨ct, it, rfl⟩
    · exact pairStatus_ne_minor _ _ htol
    · simp [mkMissingCalculatedRecord]
    · simp [mkMissingInvoicedRecord]

/-- Witness for C2: the spec's own scenario pair (50 vs 48) under the
positive-calculated branch, and a tolerance of 10 yielding no MINOR
record. -/
theorem C2_matched_pair_classification_witness :
    ((0 : ℚ) < 48 ∧
      pctDiff 50 48 = |(50 : ℚ) - 48| / 48 * 100) ∧
    ((5 : ℚ) < 10 ∧
      ∀ r ∈ reconcileLineItems exC1Invoiced exC1Calculated 10,
        r.status ≠ RStatus.sMinor) :=
  ⟨⟨by norm_num,
    (C2_matched_pair_classification 50 48 10 exC1Invoiced exC1Calculated).1 (by norm_num)⟩,
   ⟨by norm_num,
    (C2_matched_pair_classification 50 48 10 exC1Invoiced exC1Calculated).2.2.2 (by norm_num)⟩⟩

/-- C9 counterexample: empty raw content — the claim's own example of
content that "cannot be tokenized into rows" — is processed without any
error: splitting yields the single empty row and `process_nem12` returns the
empty channel list (its code contains no raise at all). -/
lemma step300Crashes_iff (st : PState) (fields : List Str) :
    step300Crashes st fields = true ↔
      ((fields.get? 0).getD [] = str "300" ∧
        ∃ id m, st.current = some id ∧ alGet st.store id = some m ∧
          m.intervalLength = 0) := by
  cases fields with
  | nil => simp +decide [step300Crashes, str]
  | cons rt rest =>
    by_cases hrt : rt = str "300"
    · subst hrt
      cases hcur : st.current with
      | none => simp [step300Crashes, hcur]
      | some id =>
        cases hg : alGet st.store id with
        | none => simp [step300Crashes, hcur, hg]
        | some m => simp [step300Crashes, hcur, hg]
    · simp [step300Crashes, hrt]

lemma foldl_stepLineE_none (rows : List Str) :
    rows.foldl stepLineE none = none := by
  induction rows with
  | nil => rfl
  | cons l rest ih => simpa [stepLineE] using ih

lemma foldl_stepLineE_some (rows : List Str) (st0 st : PState)
    (h : rows.foldl stepLineE (some st0) = some st) :
    st = rows.foldl stepLine st0 := by
  induction rows generalizing st0 with
  | nil => simpa using h.symm
  | cons l rest ih =>
    by_cases hc : step300Crashes st0 (splitOnChar ',' (pyStrip l)) = true
    · rw [List.foldl_cons,
        show stepLineE (some st0) l = none by simp [stepLineE, hc],
        foldl_stepLineE_none] at h
      exact absurd h (by simp)
    · have hstep : stepLineE (some st0) l = some (stepLine st0 l) := by
        simp [stepLineE, hc]
      rw [List.foldl_cons, hstep] at h
      rw [List.foldl_cons]
      exact ih (stepLine st0 l) h

/-- C9 counterexample: both halves of the claimed equivalence fail.  Empty
content — the claim's example of content that "cannot be tokenized" —
splits into one empty row and ingest returns the empty channel list with no
error; conversely a perfectly tokenizable file whose channel record carries
interval length `0` raises an uncaught `ZeroDivisionError` (not a
`FormatError`) at its first day block. -/
theorem C9_counterexample :
    linesOf (str "") = [[]] ∧
    metersOf (processNem12 (str "")) = [] ∧
    processNem12E (str "") = some (processNem12 (str "")) ∧
    processNem12E exZeroIntervalContent = none := by
  decide

/-- C9 amended: ingest never raises `FormatError` — every raw content
tokenizes into at least one row and unrecognized record types leave the
parser state unchanged — but it is not total: a step of the crash-aware
runner fails exactly when a `300` row is dispatched while the current
channel's interval length parsed as `0` (Python's `1440 // 0`), and
whenever the crash-aware run completes it agrees with the total model, so
every content avoiding that crash yields its channel list. -/
theorem C9_ingest_never_fails (content : Str) (st stA stB : PState)
    (recordType : Str) (restFields : List Str) (line : Str)
    (hunknown : recordType ∉ [str "100", str "200", str "300", str "400", str "900"]) :
    1 ≤ (linesOf content).length ∧
    stepFields stA (recordType :: restFields) = stA ∧
    (stepLineE (some stB) line = none ↔
      (recordTypeOf line = str "300" ∧
        ∃ id m, stB.current = some id ∧ alGet stB.store id = some m ∧
          m.intervalLength = 0)) ∧
    (processNem12E content = some st → st = processNem12 content) := by
  refine ⟨?_, ?_, ?_, ?_⟩
  · have h : linesOf content ≠ [] := splitOnChar_ne_nil '\n' (pyStrip content)
    exact List.length_pos.mpr h
  · simp only [List.mem_cons, List.mem_singleton, not_or] at hunknown
    obtain ⟨h1, h2, h3, h4, h5⟩ := hunknown
    simp [stepFields, h1, h2, h3, h4, h5]
  · constructor
    · intro h
      by_cases hc : step300Crashes stB (splitOnChar ',' (pyStrip line)) = true
      · obtain ⟨h0, id, m, hcur, hg, hL⟩ := (step300Crashes_iff stB _).mp hc
        exact ⟨by simpa [recordTypeOf] using h0, id, m, hcur, hg, hL⟩
      · simp [stepLineE, hc] at h
    · rintro ⟨h300, id, m, hcur, hg, hL⟩
      have hc : step300Crashes stB (splitOnChar ',' (pyStrip line)) = true :=
        (step300Crashes_iff stB _).mpr
          ⟨by simpa [recordTypeOf] using h300, id, m, hcur, hg, hL⟩
      simp [stepLineE, hc]
  · intro hE
    have h := foldl_stepLineE_some (linesOf content) initState st hE
    simpa [processNem12, runRows] using h

/-- Witness for C9 at an unrecognized `500` record type, a `300` row over
the empty initial state (no current channel, hence no crash), and the
crash-aware refinement at a content that completes. -/
theorem C9_ingest_never_fails_witness :
    (str "500" ∉ [str "100", str "200", str "300", str "400", str "900"]) ∧
    (1 ≤ (linesOf (str "nonsense")).length ∧
      stepFields initState [str "500"] = initState ∧
      (stepLineE (some initState) (str "300,20240101,1.0") = none ↔
        (recordTypeOf (str "300,20240101,1.0") = str "300" ∧
          ∃ id m, initState.current = some id ∧ alGet initState.store id = some m ∧
            m.intervalLength = 0)) ∧
      (processNem12E (str "nonsense") = some (processNem12 (str "nonsense")) →
        processNem12 (str "nonsense") = processNem12 (str "nonsense"))) :=
  ⟨by decide,
   C9_ingest_never_fails (str "nonsense") (processNem12 (str "nonsense"))
     initState initState (str "500") [] (str "300,20240101,1.0") (by decide)⟩

lemma totalPercentage_nonneg (invoicedTotal calculatedTotal : ℚ) :
    0 ≤ totalPercentage invoicedTotal calculatedTotal := by
  unfold totalPercentage
  split_ifs with h1 h2
  · positivity
  · norm_num
  · exact le_refl 0

/-- C8 counterexample: with three invoiced items and one matching calculated
item the matcher yields three records of which one matches, and the summary
stores `round(1/3, 2) = 0.33` as the confidence score — not the claimed
exact ratio 1/3.  The rounding acts on the binary64 float quotient, not the
exact ratio: at 1 match out of 40 records the double nearest 1/40 lies just
above 0.025, so the code stores 0.03 where half-even rounding of the exact
ratio would give the tie case 0.02 (last two conjuncts). -/
theorem C8_counterexample :
    (reconcileSummary 0 0 exC8Invoiced exC8Calculated 1).lineItems.length = 3 ∧
    (reconcileSummary 0 0 exC8Invoiced exC8Calculated 1).matchedItems = 1 ∧
    (reconcileSummary 0 0 exC8Invoiced exC8Calculated 1).confidenceScore = 33 / 100 ∧
    ((33 : ℚ) / 100 ≠ 1 / 3) ∧
    roundHalfEven2 (float64Div 1 40) = 3 / 100 ∧
    roundHalfEven2 ((1 : ℚ) / 40) = 2 / 100 := by
  norm_num +decide [reconcileSummary, exC8Invoiced, exC8Calculated,
    reconcileLineItems, calcByType, matchInvoiced, findBest, mkMatchedRecord,
    mkMissingCalculatedRecord, mkMissingInvoicedRecord, missingInvoicedRecords,
    alGet, alSet, pctDiff, pairStatus, str, List.enum, List.enumFrom,
    roundHalfEven2, totalPercentage, float64Div, floorLog2Frac, rheInt,
    Nat.log2]

/-- C8 amended: the overall status is SIGNIFICANT when any record is
SIGNIFICANT or the total percentage difference exceeds 5, else MINOR when
any record is MINOR or missing or the total percentage exceeds the
tolerance, else MATCH; the per-status counters count the records; and the
stored confidence score is the binary64 value of the float quotient
matched/total, rounded half-to-even to two decimals (0 when there are no
records). -/
theorem C8_rollup (invoicedTotal calculatedTotal tolerancePercent : ℚ)
    (invoicedItems calculatedItems : List MLineItem) :
    (reconcileSummary invoicedTotal calculatedTotal invoicedItems calculatedItems
        tolerancePercent).overallStatus =
      (if 0 < (reconcileSummary invoicedTotal calculatedTotal invoicedItems
            calculatedItems tolerancePercent).significantDiscrepancies ∨
          5 < totalPercentage invoicedTotal calculatedTotal then RStatus.sSignificant
       else if 0 < (reconcileSummary invoicedTotal calculatedTotal invoicedItems
            calculatedItems tolerancePercent).minorDiscrepancies ∨
          0 < (reconcileSummary invoicedTotal calculatedTotal invoicedItems
            calculatedItems tolerancePercent).missingItems ∨
          tolerancePercent < totalPercentage invoicedTotal calculatedTotal then
         RStatus.sMinor
       else RStatus.sMatch) ∧
    (reconcileSummary invoicedTotal calculatedTotal invoicedItems calculatedItems
        tolerancePercent).matchedItems =
      (reconcileLineItems invoicedItems calculatedItems tolerancePercent).countP
        (fun r => r.status = RStatus.sMatch) ∧
    (reconcileSummary invoicedTotal calculatedTotal invoicedItems calculatedItems
        tolerancePercent).missingItems =
      (reconcileLineItems invoicedItems calculatedItems tolerancePercent).countP
        (fun r => r.status = RStatus.sMissingInvoiced ∨
          r.status = RStatus.sMissingCalculated) ∧
    (reconcileSummary invoicedTotal calculatedTotal invoicedItems calculatedItems
        tolerancePercent).confidenceScore =
      roundHalfEven2
        (if 0 < (reconcileLineItems invoicedItems calculatedItems
              tolerancePercent).length then
          float64Div
            ((reconcileLineItems invoicedItems calculatedItems
                tolerancePercent).countP (fun r => r.status = RStatus.sMatch))
            (reconcileLineItems invoicedItems calculatedItems
                tolerancePercent).length
         else 0) ∧
    0 ≤ totalPercentage invoicedTotal calculatedTotal := by
  have hnn := totalPercentage_nonneg invoicedTotal calculatedTotal
  refine ⟨?_, rfl, rfl, rfl, hnn⟩
  unfold reconcileSummary
  simp only [abs_of_nonneg hnn]

/-- C4 counterexample: a file whose only reading is dated 2024-01-01,
reconciled over the billing period 2024-03-01 … 2024-03-31: the aggregate
has no reading inside the requested billing period, yet `calculate` returns
an invoice instead of the claimed `ValidationError` — the code only checks
that the consumption-summary list is nonempty and never consults the billing
period. -/
theorem C4_counterexample :
    specHasReadingInPeriod (processNem12 exJanContent) ⟨2024, 3, 1⟩ ⟨2024, 3, 31⟩ = false ∧
    (calculate (processNem12 exJanContent) (some exFlatTariff)
        (some ⟨2024, 3, 1⟩) (some ⟨2024, 3, 31⟩)).isOk = true := by
  constructor
  · decide
  · decide

/-- C4 amended: with an explicitly supplied billing period, `calculate`
fails with the validation error exactly when the file's consumption-summary
list is empty (no channel was finalized); whenever some summary exists it
returns an invoice, regardless of whether any reading falls inside the
billing period. -/
theorem C4_error_iff_no_summaries (st : PState) (tariff : Option Tariff)
    (periodStart periodEnd : Date) :
    (calculate st tariff (some periodStart) (some periodEnd) =
        .error CalcError.noConsumptionData ↔ getConsumptionSummary st = []) ∧
    (getConsumptionSummary st ≠ [] →
      (calculate st tariff (some periodStart) (some periodEnd)).isOk = true) := by
  cases hs : (getConsumptionSummary st).head? with
  | none =>
    have hnil : getConsumptionSummary st = [] := List.head?_eq_none_iff.mp hs
    constructor
    · simp [calculate, hs, hnil]
    · intro h; exact absurd hnil h
  | some s =>
    have hne : getConsumptionSummary st ≠ [] := by
      intro h; rw [h] at hs; simp at hs
    constructor
    · simp only [calculate, hs]
      constructor
      · intro h; simp at h
      · intro h; exact absurd h hne
    · intro _
      simp only [calculate, hs]
      rfl

/-- Witness for C4: the January file has a summary, and `calculate`
succeeds on it. -/
theorem C4_error_iff_no_summaries_witness :
    getConsumptionSummary (processNem12 exJanContent) ≠ [] ∧
    (calculate (processNem12 exJanContent) (some exFlatTariff)
        (some ⟨2024, 3, 1⟩) (some ⟨2024, 3, 31⟩)).isOk = true :=
  ⟨by decide,
   (C4_error_iff_no_summaries (processNem12 exJanContent) (some exFlatTariff)
      ⟨2024, 3, 1⟩ ⟨2024, 3, 31⟩).2 (by decide)⟩

/-- C3: for every successful calculation with a tariff carrying a daily
supply charge, the first line item is the supply item with amount exactly
round-half-up(charge/100 × inclusive billing days, 2); the subtotal is the
exact sum of the (already individually rounded) line-item amounts; the tax
is round-half-up(subtotal × 10%, 2); and the total is subtotal + tax. -/
theorem C3_supply_and_totals (st : PState) (t : Tariff) (c : ℚ)
    (periodStart periodEnd : Date) (inv : CalcInvoice)
    (hc : t.dailySupplyChargeCents = some c)
    (h : calculate st (some t) (some periodStart) (some periodEnd) = .ok inv) :
    (∃ supplyItem : CalcLineItem,
      inv.lineItems.head? = some supplyItem ∧
      supplyItem.chargeType = str "supply" ∧
      supplyItem.amount =
        roundHalfUp2 ((c / 100) *
          ((((jdn periodEnd : ℤ) - (jdn periodStart : ℤ) + 1 : ℤ)) : ℚ))) ∧
    inv.subtotal = (inv.lineItems.map (fun it => it.amount)).sum ∧
    inv.gst = roundHalfUp2 (inv.subtotal * (10 / 100)) ∧
    inv.total = inv.subtotal + inv.gst := by
  cases hs : (getConsumptionSummary st).head? with
  | none => rw [calculate, hs] at h; exact absurd h (by simp)
  | some s =>
    rw [calculate, hs] at h
    simp only [Except.ok.injEq] at h
    subst h
    exact ⟨⟨_, rfl, rfl, by simp [hc]⟩, rfl, rfl, rfl⟩

set_option maxHeartbeats 3200000 in
/-- Witness for C3: the January file under the flat tariff over the billing
period 2024-01-01 … 2024-01-02. -/
theorem C3_supply_and_totals_witness :
    exFlatTariff.dailySupplyChargeCents = some 100 ∧
    calculate (processNem12 exJanContent) (some exFlatTariff)
        (some ⟨2024, 1, 1⟩) (some ⟨2024, 1, 2⟩) = .ok exC3Invoice ∧
    ((∃ supplyItem : CalcLineItem,
      exC3Invoice.lineItems.head? = some supplyItem ∧
      supplyItem.chargeType = str "supply" ∧
      supplyItem.amount =
        roundHalfUp2 ((100 / 100 : ℚ) *
          ((((jdn ⟨2024, 1, 2⟩ : ℤ) - (jdn ⟨2024, 1, 1⟩ : ℤ) + 1 : ℤ)) : ℚ))) ∧
    exC3Invoice.subtotal = (exC3Invoice.lineItems.map (fun it => it.amount)).sum ∧
    exC3Invoice.gst = roundHalfUp2 (exC3Invoice.subtotal * (10 / 100)) ∧
    exC3Invoice.total = exC3Invoice.subtotal + exC3Invoice.gst) := by
  have hcalc : calculate (processNem12 exJanContent) (some exFlatTariff)
      (some ⟨2024, 1, 1⟩) (some ⟨2024, 1, 2⟩) = .ok exC3Invoice := by
    norm_num +decide [calculate, processNem12, runRows, linesOf, stepLine, stepFields,
      finalizeCurrent, parse200, parse300, p300step, readField, parseDate8,
      parseFloat, parseUnsigned, natOfDigits, digitVal, pyStrip, isPySpace,
      initState, p300_foldl, list_range_48, readField, List.filterMap_cons,
      splitOnChar, alGet, alSet, metersOf, getConsumptionSummary, summaryOf,
      bucketSums, isPeakInterval, pyWeekday, jdn, dateLt, str, pyIsDigit,
      exJanContent, exFlatTariff, exC3Invoice, getPeriodRate, defaultPeriodRate,
      toLowerStr, roundHalfUp2, daysInMonth, isLeapYear]
  exact ⟨rfl, hcalc,
    C3_supply_and_totals (processNem12 exJanContent) exFlatTariff 100
      ⟨2024, 1, 1⟩ ⟨2024, 1, 2⟩ exC3Invoice rfl hcalc⟩

set_option maxHeartbeats 3200000 in
/-- C5 counterexample: `exNegPeakContent` puts the single reading −1.0 into
the peak bucket, so the peak bucket is non-zero; yet the time-of-use
calculation emits no usage line item at all, because the code tests
`peak_kwh > 0` (and `off_peak_kwh > 0`), not "non-zero". -/
theorem C5_counterexample :
    (getConsumptionSummary (processNem12 exNegPeakContent)).map Summary.peakKwh = [-1] ∧
    ((-1 : ℚ) ≠ 0) ∧
    (calculate (processNem12 exNegPeakContent) (some exTouTariff) none none).toOption.map
        (fun inv => inv.lineItems.filter (fun it => it.chargeType = str "usage")) =
      some [] := by
  refine ⟨?_, by norm_num, ?_⟩ <;>
  norm_num +decide [calculate, processNem12, runRows, linesOf, stepLine, stepFields,
    finalizeCurrent, parse200, parse300, p300step, readField, parseDate8,
    parseFloat, parseUnsigned, natOfDigits, digitVal, pyStrip, isPySpace,
      initState, p300_foldl, list_range_48, readField, List.filterMap_cons,
    splitOnChar, alGet, alSet, metersOf, getConsumptionSummary, summaryOf,
    bucketSums, isPeakInterval, pyWeekday, jdn, dateLt, str, pyIsDigit,
    exNegPeakContent, exTouTariff, getPeriodRate, defaultPeriodRate,
    toLowerStr, roundHalfUp2, daysInMonth, isLeapYear]

/-- C5 amended: for every successful time-of-use calculation (tariff with a
nonempty period list), the usage line items are exactly one per *positive*
bucket of the aggregate's two buckets (peak, then off-peak), each with the
rate resolved by `_get_period_rate`; and the rate resolution picks the first
period whose name matches the bucket name case-insensitively, falling back
to the documented defaults peak = 35, off-peak = 18, shoulder = 25 ¢/kWh
when no period matches, instead of failing. -/
theorem C5_tou_usage_items (st : PState) (t : Tariff)
    (periodStart periodEnd : Date) (inv : CalcInvoice) (s : Summary)
    (ht : t.timePeriods ≠ [])
    (hs : (getConsumptionSummary st).head? = some s)
    (h : calculate st (some t) (some periodStart) (some periodEnd) = .ok inv) :
    (inv.lineItems.filter (fun it => it.chargeType = str "usage") =
      (if 0 < s.peakKwh then
        [{ description := str "Peak Energy Usage", chargeType := str "usage",
           quantity := some s.peakKwh, unit := some (str "kWh"),
           rate := some (getPeriodRate t (str "peak") / 100),
           amount := roundHalfUp2 (s.peakKwh * getPeriodRate t (str "peak") / 100) }]
       else []) ++
      (if 0 < s.offPeakKwh then
        [{ description := str "Off-Peak Energy Usage", chargeType := str "usage",
           quantity := some s.offPeakKwh, unit := some (str "kWh"),
           rate := some (getPeriodRate t (str "off_peak") / 100),
           amount := roundHalfUp2 (s.offPeakKwh * getPeriodRate t (str "off_peak") / 100) }]
       else [])) ∧
    (∀ (periodName : Str) (p : TimePeriod),
      t.timePeriods.find? (fun q => toLowerStr q.name == toLowerStr periodName) = some p →
      getPeriodRate t periodName = p.rateCentsPerKwh.getD 25) ∧
    (∀ periodName : Str,
      t.timePeriods.find? (fun q => toLowerStr q.name == toLowerStr periodName) = none →
      getPeriodRate t periodName = defaultPeriodRate periodName) ∧
    defaultPeriodRate (str "peak") = 35 ∧
    defaultPeriodRate (str "off_peak") = 18 ∧
    defaultPeriodRate (str "shoulder") = 25 := by
  have ht' : t.timePeriods.isEmpty = false := by
    cases hq : t.timePeriods with
    | nil => exact absurd hq ht
    | cons a l => simp
  refine ⟨?_, ?_, ?_, by simp [defaultPeriodRate], ?_, ?_⟩
  · rw [calculate, hs] at h
    simp only [Except.ok.injEq] at h
    subst h
    simp only [CalcInvoice.lineItems]
    rw [ht']
    by_cases hp : 0 < s.peakKwh <;> by_cases ho : 0 < s.offPeakKwh <;>
      simp +decide [hp, ho, List.filter]
  · intro periodName p hf
    simp [getPeriodRate, hf]
  · intro periodName hf
    simp [getPeriodRate, hf]
  · simp +decide [defaultPeriodRate]
  · simp +decide [defaultPeriodRate]

set_option maxHeartbeats 3200000 in
/-- Witness for C5: the two-bucket file under the upper-case `PEAK` tariff:
both buckets are positive, the peak rate is the matched period's 40, the
off-peak rate is the documented default 18. -/
theorem C5_tou_usage_items_witness :
    exTouTariff.timePeriods ≠ [] ∧
    (getConsumptionSummary (processNem12 exTwoBucketContent)).head? = some exTouSummary ∧
    calculate (processNem12 exTwoBucketContent) (some exTouTariff)
        (some ⟨2024, 1, 1⟩) (some ⟨2024, 1, 1⟩) = .ok exTouInvoice ∧
    exTouInvoice.lineItems.filter (fun it => it.chargeType = str "usage") =
      (if 0 < exTouSummary.peakKwh then
        [{ description := str "Peak Energy Usage", chargeType := str "usage",
           quantity := some exTouSummary.peakKwh, unit := some (str "kWh"),
           rate := some (getPeriodRate exTouTariff (str "peak") / 100),
           amount := roundHalfUp2
             (exTouSummary.peakKwh * getPeriodRate exTouTariff (str "peak") / 100) }]
       else []) ++
      (if 0 < exTouSummary.offPeakKwh then
        [{ description := str "Off-Peak Energy Usage", chargeType := str "usage",
           quantity := some exTouSummary.offPeakKwh, unit := some (str "kWh"),
           rate := some (getPeriodRate exTouTariff (str "off_peak") / 100),
           amount := roundHalfUp2
             (exTouSummary.offPeakKwh * getPeriodRate exTouTariff (str "off_peak") / 100) }]
       else []) := by
  have hs : (getConsumptionSummary (processNem12 exTwoBucketContent)).head? =
      some exTouSummary := by
    norm_num +decide [processNem12, runRows, linesOf, stepLine, stepFields,
      finalizeCurrent, parse200, parse300, p300step, readField, parseDate8,
      parseFloat, parseUnsigned, natOfDigits, digitVal, pyStrip, isPySpace,
      initState, p300_foldl, list_range_48, readField, List.filterMap_cons,
      splitOnChar, alGet, alSet, metersOf, getConsumptionSummary, summaryOf,
      bucketSums, isPeakInterval, pyWeekday, jdn, dateLt, str, pyIsDigit,
      exTwoBucketContent, exTouSummary, daysInMonth, isLeapYear]
  have hcalc : calculate (processNem12 exTwoBucketContent) (some exTouTariff)
      (some ⟨2024, 1, 1⟩) (some ⟨2024, 1, 1⟩) = .ok exTouInvoice := by
    norm_num +decide [calculate, processNem12, runRows, linesOf, stepLine, stepFields,
      finalizeCurrent, parse200, parse300, p300step, readField, parseDate8,
      parseFloat, parseUnsigned, natOfDigits, digitVal, pyStrip, isPySpace,
      initState, p300_foldl, list_range_48, readField, List.filterMap_cons,
      splitOnChar, alGet, alSet, metersOf, getConsumptionSummary, summaryOf,
      bucketSums, isPeakInterval, pyWeekday, jdn, dateLt, str, pyIsDigit,
      exTwoBucketContent, exTouTariff, exTouInvoice, getPeriodRate,
      defaultPeriodRate, toLowerStr, roundHalfUp2, daysInMonth, isLeapYear]
  exact ⟨by decide, hs, hcalc,
    (C5_tou_usage_items (processNem12 exTwoBucketContent) exTouTariff
      ⟨2024, 1, 1⟩ ⟨2024, 1, 1⟩ exTouInvoice exTouSummary (by decide) hs hcalc).1⟩

/-- C7: for every valid day-block record (parseable date, positive interval
length — the Python would divide by zero otherwise), the number of readings
parsed is at most 1440 / interval_length, and equals the number of the
1440 / interval_length considered positions whose field is present and
parses as a number: every individually malformed field lowers the count by
exactly one without an error and without discarding the rest of the day. -/
theorem C7_day_block_reading_counts (fields : List Str) (m : Meter) (d : Date)
    (hL : 0 < m.intervalLength)
    (hd : parseDate8 ((fields.get? 1).getD []) = some d) :
    (parse300 fields m).2.length ≤ 1440 / m.intervalLength ∧
    (parse300 fields m).2.length =
      ((List.range (1440 / m.intervalLength)).filter
        (fun i => ((fields.get? (2 + i)).bind parseFloat).isSome)).length := by
  unfold parse300
  rw [hd]
  simp only [p300_foldl, List.nil_append]
  constructor
  · calc (List.filterMap (readField fields d m.unitOfMeasure)
        (List.range (1440 / m.intervalLength))).length
        ≤ (List.range (1440 / m.intervalLength)).length :=
          List.length_filterMap_le _ _
      _ = 1440 / m.intervalLength := List.length_range _
  · rw [length_filterMap_eq_countP, List.countP_eq_length_filter]
    congr 1
    apply List.filter_congr
    intro i _
    simp only [readField]
    cases fields.get? (2 + i) <;> simp

/-- Witness for C7 on a 30-minute channel and a day block whose middle
value field is malformed: 2 of the 3 present fields parse, and
2 = count of parseable considered positions ≤ 48. -/
theorem C7_day_block_reading_counts_witness :
    0 < exC7Meter.intervalLength ∧
    parseDate8 ((exC7Fields.get? 1).getD []) = some ⟨2024, 1, 1⟩ ∧
    ((parse300 exC7Fields exC7Meter).2.length ≤ 1440 / exC7Meter.intervalLength ∧
      (parse300 exC7Fields exC7Meter).2.length =
        ((List.range (1440 / exC7Meter.intervalLength)).filter
          (fun i => ((exC7Fields.get? (2 + i)).bind parseFloat).isSome)).length) :=
  ⟨by decide, by decide,
   C7_day_block_reading_counts exC7Fields exC7Meter ⟨2024, 1, 1⟩ (by decide) (by decide)⟩

/-- C6 counterexample: in `exDupNmiContent` the same NMI opens two channel
contexts; the second `200` record resets the shared per-NMI reading list, so
the first channel's summary shows bucket sums 0 + 0 against a total of 1:
the claimed bucket-sum identity fails. -/
theorem C6_counterexample :
    (getConsumptionSummary (processNem12 exDupNmiContent)).map
        (fun s => (s.peakKwh + s.offPeakKwh, s.totalKwh)) = [(0, 1), (0, 0)] ∧
    ((0 : ℚ) ≠ 1) := by
  constructor
  · norm_num +decide [calculate, processNem12, runRows, linesOf, stepLine, stepFields,
      finalizeCurrent, parse200, parse300, p300step, readField, parseDate8,
      parseFloat, parseUnsigned, natOfDigits, digitVal, pyStrip, isPySpace,
      initState, p300_foldl, list_range_48, List.filterMap_cons,
      splitOnChar, alGet, alSet, metersOf, getConsumptionSummary, summaryOf,
      bucketSums, isPeakInterval, pyWeekday, jdn, dateLt, str, pyIsDigit,
      exDupNmiContent, daysInMonth, isLeapYear]
  · norm_num

lemma bucketSums_eq_filter_sums (ivs : List IntervalRec) (intervalLength : ℕ) :
    bucketSums ivs intervalLength =
      (((ivs.filter (fun r => isPeakInterval r.date r.interval intervalLength)).map
          IntervalRec.value).foldl (· + ·) 0,
       ((ivs.filter
            (fun r => !(isPeakInterval r.date r.interval intervalLength))).map
          IntervalRec.value).foldl (· + ·) 0) := by
  have key : ∀ (l : List IntervalRec) (a b : ℚ),
      l.foldl
          (fun acc r =>
            if isPeakInterval r.date r.interval intervalLength then
              (acc.1 + r.value, acc.2)
            else (acc.1, acc.2 + r.value)) (a, b) =
        (((l.filter (fun r => isPeakInterval r.date r.interval intervalLength)).map
            IntervalRec.value).foldl (· + ·) a,
         ((l.filter
              (fun r => !(isPeakInterval r.date r.interval intervalLength))).map
            IntervalRec.value).foldl (· + ·) b) := by
    intro l
    induction l with
    | nil => intro a b; simp
    | cons r rest ih =>
      intro a b
      by_cases hp : isPeakInterval r.date r.interval intervalLength = true
      · simp [List.foldl_cons, List.filter_cons, hp, ih]
      · simp [List.foldl_cons, List.filter_cons, hp, ih]
  exact key ivs 0 0

lemma foldl_add_eq_sum (l : List ℚ) (a : ℚ) : l.foldl (· + ·) a = a + l.sum := by
  induction l generalizing a with
  | nil => simp
  | cons x rest ih => simp [List.foldl_cons, ih, add_assoc]

/-- C6 amended: for every processed file in which no two channel (`200`)
records share an NMI, every consumption summary's buckets partition its
channel's stored readings by the fixed weekday/7–22h rule: the peak bucket
is the in-order sum of exactly the readings satisfying the rule, the
off-peak bucket the in-order sum of exactly the others, and the total the
in-order sum of all of them — equalities between the very operation
sequences the program performs.  Consequently peak + off-peak equals the
total in exact arithmetic (final conjunct); the program's floating-point
sums satisfy that identity within rounding of the shared addends. -/
theorem C6_buckets_partition_readings (content : Str)
    (hdist : (nmis200 (linesOf content)).Nodup) :
    ∀ s ∈ getConsumptionSummary (processNem12 content),
      ∃ m ∈ metersOf (processNem12 content),
        s = summaryOf (processNem12 content) m ∧
        s.peakKwh =
          ((((alGet (processNem12 content).intervalData m.nmi).getD []).filter
              (fun r => isPeakInterval r.date r.interval m.intervalLength)).map
            IntervalRec.value).foldl (· + ·) 0 ∧
        s.offPeakKwh =
          ((((alGet (processNem12 content).intervalData m.nmi).getD []).filter
              (fun r => !(isPeakInterval r.date r.interval m.intervalLength))).map
            IntervalRec.value).foldl (· + ·) 0 ∧
        s.totalKwh =
          (((alGet (processNem12 content).intervalData m.nmi).getD []).map
            IntervalRec.value).foldl (· + ·) 0 ∧
        s.peakKwh + s.offPeakKwh = s.totalKwh := by
  have hinv : StoreInv (processNem12 content) (nmis200 (linesOf content)) := by
    have h := storeInv_run (linesOf content) initState [] storeInv_init
      (by simpa using hdist)
    simpa [processNem12, runRows] using h
  intro s hs
  obtain ⟨m, hm, hsm⟩ := List.mem_map.mp hs
  obtain ⟨id, hidf, hg⟩ := List.mem_filterMap.mp hm
  have hsum := hinv.2.2.2 id m hg
  have hb := bucketSums_eq_filter_sums
    ((alGet (processNem12 content).intervalData m.nmi).getD []) m.intervalLength
  refine ⟨m, hm, hsm.symm, ?_, ?_, ?_, ?_⟩
  · rw [← hsm]
    show (bucketSums ((alGet (processNem12 content).intervalData m.nmi).getD [])
        m.intervalLength).1 = _
    rw [hb]
  · rw [← hsm]
    show (bucketSums ((alGet (processNem12 content).intervalData m.nmi).getD [])
        m.intervalLength).2 = _
    rw [hb]
  · rw [← hsm]
    show m.totalConsumption =
      (((alGet (processNem12 content).intervalData m.nmi).getD []).map
        IntervalRec.value).foldl (· + ·) 0
    rw [foldl_add_eq_sum, zero_add]
    exact hsum.symm
  · rw [← hsm]
    show (bucketSums ((alGet (processNem12 content).intervalData m.nmi).getD [])
          m.intervalLength).1 +
        (bucketSums ((alGet (processNem12 content).intervalData m.nmi).getD [])
          m.intervalLength).2 = m.totalConsumption
    rw [bucketSums_fst_add_snd]
    exact hsum

/-- Witness for C6: the single-channel January file has pairwise distinct
channel NMIs, so each of its summaries satisfies the partition and
exact-sum identities. -/
theorem C6_buckets_partition_readings_witness :
    (nmis200 (linesOf exJanContent)).Nodup ∧
    ∀ s ∈ getConsumptionSummary (processNem12 exJanContent),
      ∃ m ∈ metersOf (processNem12 exJanContent),
        s = summaryOf (processNem12 exJanContent) m ∧
        s.peakKwh =
          ((((alGet (processNem12 exJanContent).intervalData m.nmi).getD []).filter
              (fun r => isPeakInterval r.date r.interval m.intervalLength)).map
            IntervalRec.value).foldl (· + ·) 0 ∧
        s.offPeakKwh =
          ((((alGet (processNem12 exJanContent).intervalData m.nmi).getD []).filter
              (fun r => !(isPeakInterval r.date r.interval m.intervalLength))).map
            IntervalRec.value).foldl (· + ·) 0 ∧
        s.totalKwh =
          (((alGet (processNem12 exJanContent).intervalData m.nmi).getD []).map
            IntervalRec.value).foldl (· + ·) 0 ∧
        s.peakKwh + s.offPeakKwh = s.totalKwh :=
  ⟨by decide, C6_buckets_partition_readings exJanContent (by decide)⟩

/-! ## Freezing of the parser state after an unterminated channel record -/

lemma idsInv_init : IdsInv initState := by
  refine ⟨?_, ?_, ?_⟩ <;> simp [initState]

lemma idsInv_finalize (st : PState) (h : IdsInv st) : IdsInv (finalizeCurrent st) := by
  obtain ⟨hkeys, hfin, hcur⟩ := h
  unfold finalizeCurrent
  split
  · exact ⟨hkeys, hfin, hcur⟩
  · rename_i cid hc
    split
    · exact ⟨hkeys, hfin, hcur⟩
    · rename_i m hg
      have hcidlt : cid < st.nextId := hkeys _ (alGet_mem _ _ _ hg)
      refine ⟨?_, ?_, ?_⟩
      · intro kv hkv
        rcases alSet_mem _ _ _ kv hkv with he | hm
        · simpa [he] using hcidlt
        · exact hkeys _ hm
      · intro id hid
        rcases List.mem_append.mp hid with hid | hid
        · exact hfin _ hid
        · simpa [List.mem_singleton.mp hid] using hcidlt
      · exact hcur

lemma idsInv_stepLine (st : PState) (l : Str) (h : IdsInv st) :
    IdsInv (stepLine st l) := by
  obtain ⟨rt, rest, hf⟩ :=
    List.exists_cons_of_ne_nil (splitOnChar_ne_nil ',' (pyStrip l))
  rw [stepLine, hf]
  by_cases h100 : rt = str "100"
  · simpa [stepFields, if_pos h100] using h
  by_cases h200 : rt = str "200"
  · simp only [stepFields, if_neg h100, if_pos h200]
    obtain ⟨hkeys, hfin, hcur⟩ := idsInv_finalize st h
    refine ⟨?_, ?_, ?_⟩
    · intro kv hkv
      rcases List.mem_append.mp hkv with hkv | hkv
      · exact (hkeys _ hkv).trans (Nat.lt_succ_self _)
      · rw [List.mem_singleton.mp hkv]
        exact Nat.lt_succ_self _
    · intro id hid
      exact (hfin _ hid).trans (Nat.lt_succ_self _)
    · intro id hid
      rw [Option.some_inj.mp hid]
      exact Nat.lt_succ_self _
  by_cases h300 : rt = str "300"
  · simp only [stepFields, if_neg h100, if_neg h200, if_pos h300]
    split
    · exact h
    · rename_i cid hc
      split
      · exact h
      · rename_i m hg
        obtain ⟨hkeys, hfin, hcur⟩ := h
        refine ⟨?_, hfin, hcur⟩
        intro kv hkv
        rcases alSet_mem _ _ _ kv hkv with he | hm
        · rw [he]
          exact hkeys _ (alGet_mem _ _ _ hg)
        · exact hkeys _ hm
  by_cases h400 : rt = str "400"
  · simpa [stepFields, h100, h200, h300, if_pos h400] using h
  by_cases h900 : rt = str "900"
  · simp only [stepFields, if_neg h100, if_neg h200, if_neg h300, if_neg h400,
      if_pos h900]
    exact idsInv_finalize st h
  · simpa [stepFields, h100, h200, h300, h400, h900] using h

lemma idsInv_run (rows : List Str) (st : PState) (h : IdsInv st) :
    IdsInv (rows.foldl stepLine st) := by
  induction rows generalizing st with
  | nil => exact h
  | cons l rest ih => exact ih _ (idsInv_stepLine st l h)

lemma stepLine_frozen (st : PState) (c : ℕ) (m0 : Meter) (l : Str)
    (hcur : st.current = some c) (hm0 : alGet st.store c = some m0)
    (hl200 : recordTypeOf l ≠ str "200") (hl900 : recordTypeOf l ≠ str "900") :
    (stepLine st l).finalized = st.finalized ∧
    (stepLine st l).current = some c ∧
    (∃ m1, alGet (stepLine st l).store c = some m1 ∧ m1.nmi = m0.nmi) ∧
    (∀ id, id ≠ c → alGet (stepLine st l).store id = alGet st.store id) ∧
    (∀ k, k ≠ m0.nmi →
      alGet (stepLine st l).intervalData k = alGet st.intervalData k) := by
  obtain ⟨rt, rest, hf⟩ :=
    List.exists_cons_of_ne_nil (splitOnChar_ne_nil ',' (pyStrip l))
  have hrt : recordTypeOf l = rt := by simp [recordTypeOf, hf]
  rw [hrt] at hl200 hl900
  rw [stepLine, hf]
  by_cases h100 : rt = str "100"
  · have hst : stepFields st (rt :: rest) = st := by
      simp [stepFields, if_pos h100]
    rw [hst]
    exact ⟨rfl, hcur, ⟨m0, hm0, rfl⟩, fun _ _ => rfl, fun _ _ => rfl⟩
  by_cases h300 : rt = str "300"
  · have hst : stepFields st (rt :: rest) =
        { st with
          store := alSet st.store c (parse300 (rt :: rest) m0).1,
          intervalData :=
            alSet st.intervalData (parse300 (rt :: rest) m0).1.nmi
              (((alGet st.intervalData (parse300 (rt :: rest) m0).1.nmi).getD []) ++
                (parse300 (rt :: rest) m0).2) } := by
      simp [stepFields, if_neg h100, if_neg hl200, if_pos h300, hcur, hm0]
    rw [hst]
    refine ⟨rfl, hcur, ⟨(parse300 (rt :: rest) m0).1, alGet_alSet_self _ _ _,
      (parse300_preserves (rt :: rest) m0).1⟩, ?_, ?_⟩
    · intro id hid
      rw [alGet_alSet, if_neg (fun e => hid e.symm)]
    · intro k hk
      rw [alGet_alSet, (parse300_preserves (rt :: rest) m0).1,
        if_neg (fun e => hk e.symm)]
  by_cases h400 : rt = str "400"
  · have hst : stepFields st (rt :: rest) = st := by
      simp [stepFields, h100, hl200, h300, if_pos h400]
    rw [hst]
    exact ⟨rfl, hcur, ⟨m0, hm0, rfl⟩, fun _ _ => rfl, fun _ _ => rfl⟩
  · have hst : stepFields st (rt :: rest) = st := by
      simp [stepFields, h100, hl200, h300, h400, hl900]
    rw [hst]
    exact ⟨rfl, hcur, ⟨m0, hm0, rfl⟩, fun _ _ => rfl, fun _ _ => rfl⟩

lemma tail_rows_frozen (rows2 : List Str) (st : PState) (c : ℕ) (m0 : Meter)
    (hcur : st.current = some c) (hm0 : alGet st.store c = some m0)
    (h2 : ∀ l ∈ rows2, recordTypeOf l ≠ str "200" ∧ recordTypeOf l ≠ str "900") :
    (rows2.foldl stepLine st).finalized = st.finalized ∧
    (∀ id, id ≠ c →
      alGet (rows2.foldl stepLine st).store id = alGet st.store id) ∧
    (∀ k, k ≠ m0.nmi →
      alGet (rows2.foldl stepLine st).intervalData k = alGet st.intervalData k) := by
  induction rows2 generalizing st m0 with
  | nil => exact ⟨rfl, fun _ _ => rfl, fun _ _ => rfl⟩
  | cons l rest ih =>
    rw [List.foldl_cons]
    obtain ⟨hl200, hl900⟩ := h2 l (List.mem_cons_self _ _)
    have h2' : ∀ l' ∈ rest,
        recordTypeOf l' ≠ str "200" ∧ recordTypeOf l' ≠ str "900" :=
      fun l' hl' => h2 l' (List.mem_cons_of_mem _ hl')
    obtain ⟨hfin1, hcur1, ⟨m1, hm1, hnmi1⟩, hsto1, hidata1⟩ :=
      stepLine_frozen st c m0 l hcur hm0 hl200 hl900
    obtain ⟨hfin2, hsto2, hidata2⟩ := ih (stepLine st l) m1 hcur1 hm1 h2'
    refine ⟨hfin2.trans hfin1, ?_, ?_⟩
    · intro id hid
      exact (hsto2 id hid).trans (hsto1 id hid)
    · intro k hk
      have hk1 : k ≠ m1.nmi := fun e => hk (e.trans hnmi1)
      exact (hidata2 k hk1).trans (hidata1 k hk)

lemma step200_state (st : PState) (l : Str) (h200 : recordTypeOf l = str "200") :
    (stepLine st l).current = some (finalizeCurrent st).nextId ∧
    (stepLine st l).finalized = (finalizeCurrent st).finalized ∧
    (stepLine st l).store = (finalizeCurrent st).store ++
      [((finalizeCurrent st).nextId, parse200 (splitOnChar ',' (pyStrip l)))] ∧
    (stepLine st l).intervalData =
      alSet (finalizeCurrent st).intervalData
        (parse200 (splitOnChar ',' (pyStrip l))).nmi [] := by
  obtain ⟨rt, rest, hf⟩ :=
    List.exists_cons_of_ne_nil (splitOnChar_ne_nil ',' (pyStrip l))
  have hrt : recordTypeOf l = rt := by simp [recordTypeOf, hf]
  rw [hrt] at h200
  have h100 : ¬ rt = str "100" := by rw [h200]; decide
  rw [stepLine, hf]
  have hst : stepFields st (rt :: rest) =
      { nextId := (finalizeCurrent st).nextId + 1,
        store := (finalizeCurrent st).store ++
          [((finalizeCurrent st).nextId, parse200 (rt :: rest))],
        finalized := (finalizeCurrent st).finalized,
        current := some (finalizeCurrent st).nextId,
        intervalData :=
          alSet (finalizeCurrent st).intervalData (parse200 (rt :: rest)).nmi [] } := by
    simp [stepFields, if_neg h100, if_pos h200]
  rw [hst]
  exact ⟨rfl, rfl, rfl, rfl⟩

lemma filterMap_ext_mem {α β : Type} (l : List α) (f g : α → Option β)
    (h : ∀ a ∈ l, f a = g a) : l.filterMap f = l.filterMap g := by
  induction l with
  | nil => rfl
  | cons a rest ih =>
    rw [List.filterMap_cons, List.filterMap_cons, h a (List.mem_cons_self _ _),
      ih (fun a' ha' => h a' (List.mem_cons_of_mem _ ha'))]

lemma map_ext_mem {α β : Type} (l : List α) (f g : α → β)
    (h : ∀ a ∈ l, f a = g a) : l.map f = l.map g := by
  induction l with
  | nil => rfl
  | cons a rest ih =>
    rw [List.map_cons, List.map_cons, h a (List.mem_cons_self _ _),
      ih (fun a' ha' => h a' (List.mem_cons_of_mem _ ha'))]

lemma nmis200_single_200 (l : Str) (h : recordTypeOf l = str "200") :
    nmis200 [l] = [nmiOfLine l] := by
  simp [nmis200, h]

/-- C10 counterexample: in `exLeakContent` the unterminated last channel
record shares its NMI with an earlier, finalized channel.  The last channel
is omitted from the meter list as claimed (both returned meters are the
first channel object, with total 0 and no dates), but its trailing 2.0
reading appears in both consumption summaries — the claim's "its readings do
not appear in any consumption summary" fails. -/
theorem C10_counterexample :
    (getConsumptionSummary (processNem12 exLeakContent)).map Summary.offPeakKwh =
      [2, 2] ∧
    (metersOf (processNem12 exLeakContent)).map Meter.totalConsumption = [0, 0] ∧
    (metersOf (processNem12 exLeakContent)).map Meter.startDate = [none, none] ∧
    ((2 : ℚ) ≠ 0) := by
  refine ⟨?_, ?_, ?_, by norm_num⟩ <;>
  norm_num +decide [processNem12, runRows, linesOf, stepLine, stepFields,
    finalizeCurrent, parse200, parse300, p300step, readField, parseDate8,
    parseFloat, parseUnsigned, natOfDigits, digitVal, pyStrip, isPySpace,
    initState, p300_foldl, list_range_48, List.filterMap_cons,
    splitOnChar, alGet, alSet, metersOf, getConsumptionSummary, summaryOf,
    bucketSums, isPeakInterval, pyWeekday, jdn, dateLt, str, pyIsDigit,
    exLeakContent, daysInMonth, isLeapYear]

/-- C10 amended: when the last channel (`200`) record of a file is followed
only by records that are neither channel nor terminator records, the meter
list is exactly that of the file truncated right after that record — the
last channel's descriptor is never finalized into the result; and when
additionally no two channel records share an NMI, the consumption summaries
are also unchanged, so the last channel's readings appear in no summary. -/
theorem C10_unterminated_last_channel (rows1 rows2 : List Str) (line : Str)
    (h200 : recordTypeOf line = str "200")
    (h2 : ∀ l ∈ rows2, recordTypeOf l ≠ str "200" ∧ recordTypeOf l ≠ str "900") :
    metersOf (runRows (rows1 ++ line :: rows2)) =
      metersOf (runRows (rows1 ++ [line])) ∧
    ((nmis200 (rows1 ++ [line])).Nodup →
      getConsumptionSummary (runRows (rows1 ++ line :: rows2)) =
        getConsumptionSummary (runRows (rows1 ++ [line]))) := by
  have hA : runRows (rows1 ++ [line]) = stepLine (runRows rows1) line := by
    simp [runRows, List.foldl_append]
  have hsplit2 : rows1 ++ line :: rows2 = (rows1 ++ [line]) ++ rows2 := by simp
  have hdecomp : runRows (rows1 ++ line :: rows2) =
      rows2.foldl stepLine (runRows (rows1 ++ [line])) := by
    rw [hsplit2, runRows, runRows, List.foldl_append]
  have hids0 : IdsInv (runRows rows1) := idsInv_run rows1 initState idsInv_init
  have hidsF : IdsInv (finalizeCurrent (runRows rows1)) :=
    idsInv_finalize _ hids0
  obtain ⟨hcurA, hfinA, hstoA, hidataA⟩ := step200_state (runRows rows1) line h200
  have hmA : alGet (stepLine (runRows rows1) line).store
      (finalizeCurrent (runRows rows1)).nextId =
      some (parse200 (splitOnChar ',' (pyStrip line))) := by
    rw [hstoA, alGet_append_fresh _ _ _ _ hidsF.1, if_pos rfl]
  have hcnotfin : ∀ id ∈ (stepLine (runRows rows1) line).finalized,
      id ≠ (finalizeCurrent (runRows rows1)).nextId := by
    intro id hid
    rw [hfinA] at hid
    exact Nat.ne_of_lt (hidsF.2.1 id hid)
  obtain ⟨hfinT, hstoT, hidataT⟩ :=
    tail_rows_frozen rows2 (stepLine (runRows rows1) line)
      (finalizeCurrent (runRows rows1)).nextId
      (parse200 (splitOnChar ',' (pyStrip line))) hcurA hmA h2
  have hmeters : metersOf (rows2.foldl stepLine (stepLine (runRows rows1) line)) =
      metersOf (stepLine (runRows rows1) line) := by
    unfold metersOf
    rw [hfinT]
    exact filterMap_ext_mem _ _ _ (fun id hid => hstoT id (hcnotfin id hid))
  constructor
  · rw [hdecomp, hA]
    exact hmeters
  · intro hnd
    have hinvA : StoreInv (stepLine (runRows rows1) line)
        (nmis200 (rows1 ++ [line])) := by
      have h := storeInv_run (rows1 ++ [line]) initState [] storeInv_init
        (by simpa using hnd)
      have h' : StoreInv (runRows (rows1 ++ [line]))
          ([] ++ nmis200 (rows1 ++ [line])) := h
      rw [hA] at h'
      simpa using h'
    rw [hdecomp, hA]
    unfold getConsumptionSummary
    rw [hmeters]
    apply map_ext_mem
    intro m' hm'
    obtain ⟨id, hidf, hg⟩ := List.mem_filterMap.mp hm'
    have hidne : id ≠ (finalizeCurrent (runRows rows1)).nextId := hcnotfin id hidf
    have hnmine : m'.nmi ≠ (parse200 (splitOnChar ',' (pyStrip line))).nmi :=
      hinvA.2.2.1 id m' _ _ hg hmA hidne
    unfold summaryOf
    rw [hidataT m'.nmi hnmine]

/-- Witness for C10: a file with a terminated channel `N2` followed by an
unterminated channel `N1` and a trailing day block: the meter list and the
summaries equal those of the file truncated after the `N1` record. -/
theorem C10_unterminated_last_channel_witness :
    recordTypeOf exC10Line = str "200" ∧
    (∀ l ∈ exC10Rows2, recordTypeOf l ≠ str "200" ∧ recordTypeOf l ≠ str "900") ∧
    (nmis200 (exC10Rows1 ++ [exC10Line])).Nodup ∧
    metersOf (runRows (exC10Rows1 ++ exC10Line :: exC10Rows2)) =
      metersOf (runRows (exC10Rows1 ++ [exC10Line])) ∧
    getConsumptionSummary (runRows (exC10Rows1 ++ exC10Line :: exC10Rows2)) =
      getConsumptionSummary (runRows (exC10Rows1 ++ [exC10Line])) :=
  ⟨by decide, by decide, by decide,
   (C10_unterminated_last_channel exC10Rows1 exC10Rows2 exC10Line
     (by decide) (by decide)).1,
   (C10_unterminated_last_channel exC10Rows1 exC10Rows2 exC10Line
     (by decide) (by decide)).2 (by decide)⟩

end EnergyHub
